import Mathlib

/-!
# Verification of the dots-animation compositor

A shallow embedding of `src/scripts/dots-animation.ts`: the per-frame
position/appearance compositor (`render`), the registry helpers, the
compound operations (`splitDot`, `mergeDots`, `createSatellite`) and the
teardown (`cleanupDotsAnimation`).

Modelling choices:

* Numbers are `ℚ`.  The source computes with IEEE doubles; every claim
  checked here is an algebraic identity or inequality over the field
  operations, so the exact-rational idealisation is the faithful one.
* `Math.sin`, `Math.cos` and `Math.PI` are opaque library calls from the
  program's point of view; they are abstracted as a `Trig` parameter
  (`sin`, `cos : ℚ → ℚ` and a constant `pi`).  Claims that need an
  analytic fact about the real sine (only the bound `|sin| ≤ 1`) state it
  as an explicit hypothesis on the parameter.
* The JS `Map` registry is an association list in insertion order with
  unique keys; theorems that need key uniqueness take a `Nodup`
  hypothesis.  `dots.forEach` is a fold that threads the registry, so the
  mid-iteration mutation `dot.orbitAngle += dot.satelliteOrbitSpeed` is
  visible to later parent lookups exactly as in the source.
* The per-dot DOM writes (translate/width/height/opacity/fill) are the
  `Output` record; `x, y` is the visual centre passed to the transform.
  The z-index write (only performed when the blend exceeds 0.5) is not
  modelled.  All functions are total, as the source never throws.
-/

set_option maxHeartbeats 1600000

namespace DotsAnimation

/-- The trigonometric primitives the source calls (`Math.sin`, `Math.cos`,
`Math.PI`), abstracted as parameters of the embedding. -/
structure Trig where
  sin : ℚ → ℚ
  cos : ℚ → ℚ
  pi : ℚ

/-- `DotState` from the source (DOM element handles dropped; the circle's
fill colour is the `color` field written back on render). -/
structure DotState where
  id : String
  baseXPercent : ℚ
  baseYPercent : ℚ
  offsetX : ℚ
  offsetY : ℚ
  baseSize : ℚ
  scale : ℚ
  scaleX : ℚ
  scaleY : ℚ
  orbitAngle : ℚ
  orbitRadius : ℚ
  color : String
  opacity : ℚ
  parentId : Option String
  satelliteOrbitRadius : ℚ
  satelliteOrbitSpeed : ℚ
deriving DecidableEq, Repr

/-- `EllipseOrbitState` from the source. -/
structure EllipseOrbitState where
  active : Bool
  centerX : ℚ
  centerY : ℚ
  radiusX : ℚ
  radiusY : ℚ
  depthScale : ℚ
  angle : ℚ
deriving DecidableEq, Repr

/-- The shared `globalState` record (`orbitAngle`, `orbitRadius`). -/
structure GlobalState where
  orbitAngle : ℚ
  orbitRadius : ℚ
deriving DecidableEq, Repr

/-- The dot registry: the JS `Map` as an association list in insertion
order. -/
abbrev Registry := List (String × DotState)

/-- The module-level mutable state read and written by `render`. -/
structure RenderState where
  dots : Registry
  globalState : GlobalState
  ellipseOrbit : EllipseOrbitState
  ellipseBlend : ℚ
deriving DecidableEq, Repr

/-- The environment a render call observes: `window.innerWidth/Height` and
the logo element's bounding rectangle when the element exists. -/
structure Rect where
  left : ℚ
  top : ℚ
  width : ℚ
  height : ℚ
deriving DecidableEq, Repr

structure Env where
  innerWidth : ℚ
  innerHeight : ℚ
  logoRect : Option Rect
deriving DecidableEq, Repr

/-- The per-dot DOM writes of one render: centre position, box size,
opacity, fill colour, plus the local `depthMultiplier` that produced the
size. -/
structure Output where
  x : ℚ
  y : ℚ
  width : ℚ
  height : ℚ
  opacity : ℚ
  color : String
  depthMultiplier : ℚ
deriving DecidableEq, Repr

/-- One entry of the `ellipsePositions` map. -/
structure EllipseEntry where
  x : ℚ
  y : ℚ
  depthFactor : ℚ
deriving DecidableEq, Repr

/-- `Map.get`: first entry with the key, in insertion order. -/
def alookup {α : Type} : List (String × α) → String → Option α
  | [], _ => none
  | kv :: rest, k => if kv.1 = k then some kv.2 else alookup rest k

/-- In-place mutation of the entry stored at a key (the JS object held by
the map is updated through its reference). -/
def updateFirst {α : Type} : List (String × α) → String → (α → α) → List (String × α)
  | [], _, _ => []
  | kv :: rest, k, f =>
    if kv.1 = k then (kv.1, f kv.2) :: rest else kv :: updateFirst rest k f

/-- `Map.set`: overwrite an existing key or append a new one. -/
def setEntry {α : Type} (l : List (String × α)) (k : String) (v : α) :
    List (String × α) :=
  if (alookup l k).isSome then updateFirst l k (fun _ => v) else l ++ [(k, v)]

/-- The logo geometry block of `render` (lines 180–191): centre and size of
the logo rectangle, with the fixed viewport-centred 400×100 fallback when
the element is absent. -/
structure LogoGeom where
  logoX : ℚ
  logoY : ℚ
  logoWidth : ℚ
  logoHeight : ℚ
deriving DecidableEq, Repr

def logoGeometry (env : Env) : LogoGeom :=
  match env.logoRect with
  | some r => ⟨r.left + r.width / 2, r.top + r.height / 2, r.width, r.height⟩
  | none => ⟨env.innerWidth / 2, env.innerHeight / 2, 400, 100⟩

/-- `getRenderedPosition`: logo-relative base position blended toward the
global-orbit position by `min(orbitRadius / 100, 1)`.  The sinusoidal
phase drift applies only to dots with a positive own orbit angle. -/
def getRenderedPosition (T : Trig) (g : GlobalState) (lg : LogoGeom)
    (vcx vcy : ℚ) (dot : DotState) : ℚ × ℚ :=
  let logoRelX := lg.logoX + lg.logoWidth * dot.baseXPercent + dot.offsetX
  let logoRelY := lg.logoY + lg.logoHeight * dot.baseYPercent + dot.offsetY
  let driftAmount :=
    if dot.orbitAngle > 0 then T.sin (g.orbitAngle * (2/25) * T.pi / 180) * 20 else 0
  let angle := (g.orbitAngle + dot.orbitAngle + driftAmount) * T.pi / 180
  let orbitX := vcx + T.cos angle * g.orbitRadius
  let orbitY := vcy + T.sin angle * g.orbitRadius
  let blendFactor := min (g.orbitRadius / 100) 1
  (logoRelX + (orbitX - logoRelX) * blendFactor,
   logoRelY + (orbitY - logoRelY) * blendFactor)

/-- The `ellipsePositions` map built before the per-dot loop: present only
when the blend is positive and both primary dots exist. -/
def ellipsePositionsFor (T : Trig) (eo : EllipseOrbitState) (blend : ℚ)
    (reg : Registry) : List (String × EllipseEntry) :=
  if blend > 0 then
    match alookup reg "dot1", alookup reg "dot2" with
    | some _, some _ =>
      let angle1Rad := eo.angle * T.pi / 180
      let phaseDrift := T.sin (eo.angle * (1/20) * T.pi / 180) * 25 * T.pi / 180
      let angle2Rad := angle1Rad + T.pi + phaseDrift
      let radiusVariation := 1 + T.sin (eo.angle * (3/100) * T.pi / 180) * (3/20)
      let x1 := eo.centerX + T.cos angle1Rad * eo.radiusX
      let y1 := eo.centerY + T.sin angle1Rad * eo.radiusY
      let x2 := eo.centerX + T.cos angle2Rad * eo.radiusX * radiusVariation
      let y2 := eo.centerY + T.sin angle2Rad * eo.radiusY * radiusVariation
      let depth1 := 1 + T.sin angle1Rad * eo.depthScale * blend
      let depth2 := 1 + T.sin angle2Rad * eo.depthScale * blend
      [("dot1", ⟨x1, y1, depth1⟩), ("dot2", ⟨x2, y2, depth2⟩)]
    | _, _ => []
  else []

/-- The loop's guard `ellipseBlend > 0 && ellipsePositions.has(dot.id)`,
fused with the subsequent `ellipsePositions.get(dot.id)!`. -/
def ellipseHit (blend : ℚ) (ePos : List (String × EllipseEntry))
    (id : String) : Option EllipseEntry :=
  if blend > 0 then alookup ePos id else none

/-- Final per-dot DOM write (lines 313–327): size from
`baseSize * scale * depthMultiplier`, stretched independently by
`scaleX` / `scaleY`; `(x, y)` is the visual centre. -/
def mkOutput (d : DotState) (x y dm : ℚ) : Output :=
  { x := x, y := y,
    width := d.baseSize * d.scale * dm * d.scaleX,
    height := d.baseSize * d.scale * dm * d.scaleY,
    opacity := d.opacity, color := d.color, depthMultiplier := dm }

/-- The non-ellipse part of the per-dot body: satellite orbit around a
resolved parent (with the side-effecting angle advance), viewport-centre
fallback for a dangling parent id, and the plain base/global-orbit blend
for root dots. -/
def processPlain (T : Trig) (g : GlobalState) (lg : LogoGeom) (vcx vcy : ℚ)
    (reg : Registry) (k : String) (d : DotState) : Output × Registry :=
  match d.parentId with
  | some pid =>
    match alookup reg pid with
    | some parent =>
      let pp := getRenderedPosition T g lg vcx vcy parent
      let ang := d.orbitAngle * T.pi / 180
      let x := pp.1 + T.cos ang * d.satelliteOrbitRadius
      let y := pp.2 + T.sin ang * d.satelliteOrbitRadius
      let reg' :=
        if d.satelliteOrbitSpeed ≠ 0 then
          updateFirst reg k
            (fun cur => { cur with orbitAngle := cur.orbitAngle + cur.satelliteOrbitSpeed })
        else reg
      (mkOutput d x y 1, reg')
    | none => (mkOutput d vcx vcy 1, reg)
  | none =>
    let pos := getRenderedPosition T g lg vcx vcy d
    (mkOutput d pos.1 pos.2 1, reg)

/-- One iteration of the `dots.forEach` body. -/
def processDot (T : Trig) (g : GlobalState) (lg : LogoGeom) (vcx vcy blend : ℚ)
    (ePos : List (String × EllipseEntry)) (reg : Registry) (k : String)
    (d : DotState) : Output × Registry :=
  match ellipseHit blend ePos d.id with
  | some e =>
    let gp := getRenderedPosition T g lg vcx vcy d
    (mkOutput d (gp.1 + (e.x - gp.1) * blend) (gp.2 + (e.y - gp.2) * blend)
      (1 + (e.depthFactor - 1) * blend), reg)
  | none => processPlain T g lg vcx vcy reg k d

/-- The `forEach` fold: applies a per-dot body to each entry of the
original registry in insertion order, threading the live registry. -/
def renderLoopAux (f : Registry → String → DotState → Output × Registry) :
    Registry → List (String × DotState) → List (String × Output) × Registry
  | reg, [] => ([], reg)
  | reg, kd :: rest =>
    let pr := f reg kd.1 kd.2
    let r := renderLoopAux f pr.2 rest
    ((kd.1, pr.1) :: r.1, r.2)

/-- The `ellipsePositions` map a render call with this environment and
state builds (the ellipse centre having been moved to the viewport
centre first, lines 193–195). -/
def renderEPos (T : Trig) (env : Env) (s : RenderState) :
    List (String × EllipseEntry) :=
  ellipsePositionsFor T
    { s.ellipseOrbit with centerX := env.innerWidth / 2, centerY := env.innerHeight / 2 }
    s.ellipseBlend s.dots

/-- `render`: the compositor.  Returns the per-dot DOM writes in registry
order and the post-call module state. -/
def render (T : Trig) (env : Env) (s : RenderState) :
    List (String × Output) × RenderState :=
  let vcx := env.innerWidth / 2
  let vcy := env.innerHeight / 2
  let lg := logoGeometry env
  let eo := { s.ellipseOrbit with centerX := vcx, centerY := vcy }
  let ePos := renderEPos T env s
  let lr := renderLoopAux
    (processDot T s.globalState lg vcx vcy s.ellipseBlend ePos) s.dots s.dots
  (lr.1, { s with dots := lr.2, ellipseOrbit := eo })

/-- The post-call module state of one render. -/
def renderState (T : Trig) (env : Env) (s : RenderState) : RenderState :=
  (render T env s).2

/-- N successive render calls against a fixed environment. -/
def iterateRender (T : Trig) (env : Env) : Nat → RenderState → RenderState
  | 0, s => s
  | n + 1, s => renderState T env (iterateRender T env n s)

/-- Closed-form description of what one render call does to a stored dot:
every field is untouched except `orbitAngle`, which advances by
`satelliteOrbitSpeed` exactly when the dot is not on the ellipse path, its
parent id resolves, and the speed is nonzero. -/
def dotAfterRender (dots0 : Registry) (blend : ℚ)
    (ePos : List (String × EllipseEntry)) (d : DotState) : DotState :=
  match ellipseHit blend ePos d.id with
  | some _ => d
  | none =>
    match d.parentId with
    | some pid =>
      if (alookup dots0 pid).isSome ∧ d.satelliteOrbitSpeed ≠ 0 then
        { d with orbitAngle := d.orbitAngle + d.satelliteOrbitSpeed }
      else d
    | none => d

/-- Modelled from the spec: the global-orbit-only (pre-ellipse) pipeline
the blend-0 output is compared against in claim C3 — the same compositor
with the ellipse computation absent (every dot takes the satellite or
base/global-orbit path and the depth multiplier is identically 1). -/
def renderGlobalOnly (T : Trig) (env : Env) (s : RenderState) :
    List (String × Output) × Registry :=
  let vcx := env.innerWidth / 2
  let vcy := env.innerHeight / 2
  let lg := logoGeometry env
  renderLoopAux (processPlain T s.globalState lg vcx vcy) s.dots s.dots

/-! ## Compound operations (split / merge / create-satellite)

Only the synchronous body of each exported helper is modelled: the guard
on the registry lookups, the immediate `createDot` insertion, and the
returned handle.  The GSAP timeline each helper builds runs later through
the choreography driver and is not part of the call's own state effect. -/

/-- `colors.dark`, the default fill. -/
def colorsDark : String := "#1a1a1a"

/-- The `createDot` option defaults (every field a caller may omit). -/
def defaultDot (id : String) : DotState :=
  { id := id, baseXPercent := 0, baseYPercent := 0, offsetX := 0, offsetY := 0,
    baseSize := 24, scale := 1, scaleX := 1, scaleY := 1, orbitAngle := 0,
    orbitRadius := 0, color := colorsDark, opacity := 1, parentId := none,
    satelliteOrbitRadius := 0, satelliteOrbitSpeed := 0 }

/-- `splitDot`: `null` when the source id is unknown; otherwise registers a
copy of the source (opacity 0, unit stretch) under the new id and returns
it.  The separation animation itself is deferred to the timeline. -/
def splitDot (reg : Registry) (sourceId newId : String) :
    Option DotState × Registry :=
  match alookup reg sourceId with
  | none => (none, reg)
  | some source =>
    let newDot : DotState :=
      { defaultDot newId with
          baseXPercent := source.baseXPercent, baseYPercent := source.baseYPercent,
          offsetX := source.offsetX, offsetY := source.offsetY,
          baseSize := source.baseSize, scale := source.scale,
          scaleX := 1, scaleY := 1, color := source.color, opacity := 0 }
    (some newDot, setEntry reg newId newDot)

/-- `createSatellite`: `null` when the parent id is unknown; otherwise
registers a satellite dot with the documented defaults (`orbitRadius` 30,
`orbitSpeed` 0, size 30% of the parent, parent's colour, start angle 0 —
the `Option` arguments model the omittable options whose defaults read the
parent). -/
def createSatellite (reg : Registry) (parentId satelliteId : String)
    (orbitRadius orbitSpeed : ℚ) (size : Option ℚ) (color : Option String)
    (startAngle : ℚ) : Option DotState × Registry :=
  match alookup reg parentId with
  | none => (none, reg)
  | some parent =>
    let sat : DotState :=
      { defaultDot satelliteId with
          parentId := some parentId,
          baseSize := size.getD (parent.baseSize * (3/10)),
          color := color.getD parent.color,
          orbitAngle := startAngle,
          satelliteOrbitRadius := orbitRadius,
          satelliteOrbitSpeed := orbitSpeed }
    (some sat, setEntry reg satelliteId sat)

/-- `mergeDots`: `null` when either id is unknown; otherwise builds and
returns the merge timeline.  The moves, the fade and the final `removeDot`
all live on the timeline, so the call itself leaves the registry as it
was. -/
def mergeDots (reg : Registry) (dot1Id dot2Id : String) :
    Option Unit × Registry :=
  match alookup reg dot1Id with
  | none => (none, reg)
  | some _ =>
    match alookup reg dot2Id with
    | none => (none, reg)
    | some _ => (some (), reg)

/-! ## Teardown

`cleanupDotsAnimation` works on DOM/listener state the compositor model
does not carry, so it gets its own small state record: the registry
(element handles as numeric ids), the set of dot elements attached to the
document, the resize-listener flag and the count of live scroll
triggers. -/

structure CleanupState where
  dots : List (String × Nat)
  attached : List Nat
  resizeHandlerRegistered : Bool
  scrollTriggersActive : Nat
deriving DecidableEq, Repr

/-- One step of the teardown's `dots.forEach`: detach the element unless
the entry is one of the two anchors. -/
def remStep (acc : List Nat) (kd : String × Nat) : List Nat :=
  if kd.1 ≠ "dot1" ∧ kd.1 ≠ "dot2" then acc.filter (fun e => e ≠ kd.2) else acc

/-- `cleanupDotsAnimation`: unregister the resize handler if present, kill
every scroll trigger, detach every non-anchor dot element, then clear the
registry. -/
def cleanupDotsAnimation (st : CleanupState) : CleanupState :=
  let st1 :=
    if st.resizeHandlerRegistered then { st with resizeHandlerRegistered := false }
    else st
  let st2 := { st1 with scrollTriggersActive := 0 }
  { st2 with attached := st2.dots.foldl remStep st2.attached, dots := [] }

/-! ## Concrete sample inputs (used by the closed witness theorems) -/

/-- A concrete trig instance agreeing with the real functions at the points
the witnesses evaluate (`sin 0 = 0`, `cos 0 = 1`). -/
def Tid : Trig := { sin := fun _ => 0, cos := fun _ => 1, pi := 22/7 }

/-- A concrete trig instance for the counterexamples: constantly the value
the real `sin`/`cos` take at the angles actually evaluated there
(`sin (π/2) = 1` for C4, `cos 0 = 1` for C7). -/
def Tone : Trig := { sin := fun _ => 1, cos := fun _ => 1, pi := 22/7 }

def defaultEllipse : EllipseOrbitState :=
  { active := false, centerX := 0, centerY := 0, radiusX := 0, radiusY := 0,
    depthScale := 2/5, angle := 0 }

def envSample : Env := { innerWidth := 1000, innerHeight := 800, logoRect := none }

/-- One parentless dot, everything at rest (claim C6's example input). -/
def sampleLogoState : RenderState :=
  { dots := [("d1", { defaultDot "d1" with baseXPercent := -(1/50) })],
    globalState := { orbitAngle := 0, orbitRadius := 0 },
    ellipseOrbit := defaultEllipse, ellipseBlend := 0 }

/-- The satellite of the `sampleSatState` input. -/
def sampleSatDot : DotState :=
  { defaultDot "s1" with
      parentId := some "d1", satelliteOrbitRadius := 10, satelliteOrbitSpeed := 3 }

/-- A root dot plus a satellite orbiting it. -/
def sampleSatState : RenderState :=
  { dots := [("d1", defaultDot "d1"), ("s1", sampleSatDot)],
    globalState := { orbitAngle := 0, orbitRadius := 0 },
    ellipseOrbit := defaultEllipse, ellipseBlend := 0 }

/-- The first primary dot of `sampleEllipseState`. -/
def sampleDot1 : DotState := { defaultDot "dot1" with scale := 2 }

/-- Both primary dots present, ellipse fully blended in, angle 0. -/
def sampleEllipseState : RenderState :=
  { dots := [("dot1", sampleDot1), ("dot2", defaultDot "dot2")],
    globalState := { orbitAngle := 0, orbitRadius := 0 },
    ellipseOrbit := { defaultEllipse with radiusX := 200, radiusY := 120 },
    ellipseBlend := 1 }

/-- The `ellipsePositions` entry `render` builds for `dot1` of
`sampleEllipseState` under `Tid`. -/
def sampleEllipseEntry : EllipseEntry :=
  { x := 700, y := 400, depthFactor := 1 }

/-- Primary dots present, half blend, ellipse angle 90° (where the real
sine is 1): the C4 counterexample input. -/
def halfBlendState : RenderState :=
  { dots := [("dot1", defaultDot "dot1"), ("dot2", defaultDot "dot2")],
    globalState := { orbitAngle := 0, orbitRadius := 0 },
    ellipseOrbit := { defaultEllipse with radiusX := 200, radiusY := 120, angle := 90 },
    ellipseBlend := 1/2 }

/-- dot1 carries a dangling parent id while in ellipse mode: the C7
counterexample input. -/
def orphanEllipseState : RenderState :=
  { dots := [("dot1", { defaultDot "dot1" with parentId := some "ghost" }),
             ("dot2", defaultDot "dot2")],
    globalState := { orbitAngle := 0, orbitRadius := 0 },
    ellipseOrbit := { defaultEllipse with radiusX := 200, radiusY := 120 },
    ellipseBlend := 1 }

/-- The output `render` produces for the dot of `sampleLogoState`. -/
def sampleOutput : Output :=
  { x := 492, y := 400, width := 24, height := 24, opacity := 1,
    color := colorsDark, depthMultiplier := 1 }

/-- A dangling parent id outside ellipse mode. -/
def orphanPlainState : RenderState :=
  { dots := [("s1", { defaultDot "s1" with parentId := some "ghost" })],
    globalState := { orbitAngle := 0, orbitRadius := 0 },
    ellipseOrbit := defaultEllipse, ellipseBlend := 0 }

/-- A satellite whose parent is itself a satellite: the middle link of
`satChainState`. -/
def satChainParent : DotState :=
  { defaultDot "p" with parentId := some "root", satelliteOrbitRadius := 50 }

/-- The outer satellite of `satChainState`, orbiting `satChainParent`. -/
def satChainChild : DotState :=
  { defaultDot "c" with parentId := some "p", satelliteOrbitRadius := 10 }

/-- A root dot, a satellite of it, and a satellite of that satellite — a
configuration `createSatellite` permits (any registered id may be named as
parent). -/
def satChainState : RenderState :=
  { dots := [("root", defaultDot "root"), ("p", satChainParent),
             ("c", satChainChild)],
    globalState := { orbitAngle := 0, orbitRadius := 0 },
    ellipseOrbit := defaultEllipse, ellipseBlend := 0 }

/-- A concrete teardown input: one anchor and one dynamic dot, both
attached, with a live resize handler and three scroll triggers. -/
def sampleCleanup : CleanupState :=
  { dots := [("dot1", 1), ("x", 2)], attached := [1, 2],
    resizeHandlerRegistered := true, scrollTriggersActive := 3 }

/-! ## Association-list lemmas -/

theorem alookup_updateFirst_self {α : Type} (l : List (String × α)) (k : String)
    (f : α → α) : alookup (updateFirst l k f) k = (alookup l k).map f := by
  induction l with
  | nil => rfl
  | cons kv rest ih =>
    by_cases h : kv.1 = k
    · simp [updateFirst, alookup, h]
    · simp [updateFirst, alookup, h, ih]

theorem alookup_updateFirst_ne {α : Type} (l : List (String × α)) (k q : String)
    (f : α → α) (h : q ≠ k) :
    alookup (updateFirst l k f) q = alookup l q := by
  induction l with
  | nil => rfl
  | cons kv rest ih =>
    by_cases hk : kv.1 = k
    · simp [updateFirst, alookup, hk, Ne.symm h]
    · by_cases hq : kv.1 = q
      · simp [updateFirst, alookup, hk, hq, h]
      · simp [updateFirst, alookup, hk, hq, ih]

theorem updateFirst_keys {α : Type} (l : List (String × α)) (k : String)
    (f : α → α) : (updateFirst l k f).map Prod.fst = l.map Prod.fst := by
  induction l with
  | nil => rfl
  | cons kv rest ih =>
    by_cases h : kv.1 = k
    · simp [updateFirst, h]
    · simp [updateFirst, h, ih]

theorem alookup_isSome_iff_mem {α : Type} (l : List (String × α)) (q : String) :
    (alookup l q).isSome ↔ q ∈ l.map Prod.fst := by
  induction l with
  | nil => simp [alookup]
  | cons kv rest ih =>
    by_cases h : kv.1 = q
    · simp [alookup, h]
    · simp [alookup, h, ih, Ne.symm h]

theorem alookup_eq_none_iff {α : Type} (l : List (String × α)) (q : String) :
    alookup l q = none ↔ q ∉ l.map Prod.fst := by
  rw [← alookup_isSome_iff_mem]
  cases alookup l q <;> simp

theorem alookup_isSome_of_keys_eq {α β : Type} (l1 : List (String × α))
    (l2 : List (String × β)) (q : String)
    (h : l1.map Prod.fst = l2.map Prod.fst) :
    (alookup l1 q).isSome = (alookup l2 q).isSome := by
  have h1 := alookup_isSome_iff_mem l1 q
  have h2 := alookup_isSome_iff_mem l2 q
  rw [h] at h1
  cases hc : alookup l1 q <;> cases hc2 : alookup l2 q <;>
    simp_all

theorem alookup_mem {α : Type} (l : List (String × α)) (k : String) (v : α)
    (h : alookup l k = some v) : (k, v) ∈ l := by
  induction l with
  | nil => simp [alookup] at h
  | cons kv rest ih =>
    obtain ⟨a, b⟩ := kv
    by_cases hk : a = k
    · simp [alookup, hk] at h
      subst hk
      subst h
      exact List.mem_cons_self _ _
    · simp [alookup, hk] at h
      exact List.mem_cons_of_mem _ (ih h)

theorem alookup_of_mem_nodup {α : Type} (l : List (String × α)) (k : String)
    (v : α) (hnd : (l.map Prod.fst).Nodup) (hmem : (k, v) ∈ l) :
    alookup l k = some v := by
  induction l with
  | nil => simp at hmem
  | cons kv rest ih =>
    obtain ⟨a, b⟩ := kv
    have hnd2 : (a :: rest.map Prod.fst).Nodup := by simpa using hnd
    obtain ⟨h1, h2⟩ := List.nodup_cons.mp hnd2
    rcases List.mem_cons.mp hmem with h | h
    · obtain ⟨he1, he2⟩ := Prod.mk.injEq .. ▸ h.symm
      subst he1
      simp [alookup, he2]
    · have hkmem : k ∈ rest.map Prod.fst := List.mem_map.mpr ⟨(k, v), h, rfl⟩
      have hk : a ≠ k := fun he => h1 (he ▸ hkmem)
      simp [alookup, hk]
      exact ih h2 h

theorem eq_of_mem_alookup_nodup {α : Type} (l : List (String × α)) (k : String)
    (v w : α) (hnd : (l.map Prod.fst).Nodup) (hmem : (k, v) ∈ l)
    (hl : alookup l k = some w) : v = w := by
  have hv := alookup_of_mem_nodup l k v hnd hmem
  exact Option.some_injective _ (hv.symm.trans hl)

theorem updateFirst_append_notMem {α : Type} (l1 l2 : List (String × α))
    (k : String) (f : α → α) (h : k ∉ l1.map Prod.fst) :
    updateFirst (l1 ++ l2) k f = l1 ++ updateFirst l2 k f := by
  induction l1 with
  | nil => rfl
  | cons kv rest ih =>
    obtain ⟨a, b⟩ := kv
    simp only [List.map_cons, List.mem_cons] at h
    push_neg at h
    have ha : ¬(a = k) := fun he => h.1 he.symm
    simp [updateFirst, ha, ih h.2]

/-! ## Case lemmas for one loop iteration -/

section ProcessLemmas

variable (T : Trig) (g : GlobalState) (lg : LogoGeom) (vcx vcy blend : ℚ)
variable (ePos : List (String × EllipseEntry))

theorem processPlain_keys (reg : Registry) (k : String) (d : DotState) :
    ((processPlain T g lg vcx vcy reg k d).2).map Prod.fst = reg.map Prod.fst := by
  cases hp : d.parentId with
  | none => simp [processPlain, hp]
  | some pid =>
    cases hl : alookup reg pid with
    | none => simp [processPlain, hp, hl]
    | some parent =>
      by_cases hs : d.satelliteOrbitSpeed = 0
      · simp [processPlain, hp, hl, hs]
      · simp [processPlain, hp, hl, hs, updateFirst_keys]

theorem processDot_keys (reg : Registry) (k : String) (d : DotState) :
    ((processDot T g lg vcx vcy blend ePos reg k d).2).map Prod.fst = reg.map Prod.fst := by
  cases hh : ellipseHit blend ePos d.id with
  | some e => simp [processDot, hh]
  | none =>
    simp only [processDot, hh]
    exact processPlain_keys T g lg vcx vcy reg k d

theorem processDot_reg_cases (reg : Registry) (k : String) (d : DotState) :
    (processDot T g lg vcx vcy blend ePos reg k d).2 = reg ∨
      (processDot T g lg vcx vcy blend ePos reg k d).2 =
        updateFirst reg k
          (fun cur => { cur with orbitAngle := cur.orbitAngle + cur.satelliteOrbitSpeed }) := by
  cases hh : ellipseHit blend ePos d.id with
  | some e => exact Or.inl (by simp [processDot, hh])
  | none =>
    cases hp : d.parentId with
    | none => exact Or.inl (by simp [processDot, processPlain, hh, hp])
    | some pid =>
      cases hl : alookup reg pid with
      | none => exact Or.inl (by simp [processDot, processPlain, hh, hp, hl])
      | some parent =>
        by_cases hs : d.satelliteOrbitSpeed = 0
        · exact Or.inl (by simp [processDot, processPlain, hh, hp, hl, hs])
        · exact Or.inr (by simp [processDot, processPlain, hh, hp, hl, hs])

theorem processDot_reg_of_parent_none (reg : Registry) (k : String) (d : DotState)
    (h : d.parentId = none) :
    (processDot T g lg vcx vcy blend ePos reg k d).2 = reg := by
  cases hh : ellipseHit blend ePos d.id with
  | some e => simp [processDot, hh]
  | none => simp [processDot, processPlain, hh, h]

theorem processDot_out_ellipse (reg : Registry) (k : String) (d : DotState)
    (e : EllipseEntry) (h : ellipseHit blend ePos d.id = some e) :
    (processDot T g lg vcx vcy blend ePos reg k d).1 =
      mkOutput d
        ((getRenderedPosition T g lg vcx vcy d).1 +
          (e.x - (getRenderedPosition T g lg vcx vcy d).1) * blend)
        ((getRenderedPosition T g lg vcx vcy d).2 +
          (e.y - (getRenderedPosition T g lg vcx vcy d).2) * blend)
        (1 + (e.depthFactor - 1) * blend) := by
  simp [processDot, h]

theorem processDot_out_root (reg : Registry) (k : String) (d : DotState)
    (hhit : ellipseHit blend ePos d.id = none) (hpar : d.parentId = none) :
    (processDot T g lg vcx vcy blend ePos reg k d).1 =
      mkOutput d (getRenderedPosition T g lg vcx vcy d).1
        (getRenderedPosition T g lg vcx vcy d).2 1 := by
  simp [processDot, processPlain, hhit, hpar]

theorem processDot_out_sat (reg : Registry) (k : String) (d : DotState)
    (pid : String) (par : DotState) (hhit : ellipseHit blend ePos d.id = none)
    (hpar : d.parentId = some pid) (hfound : alookup reg pid = some par) :
    (processDot T g lg vcx vcy blend ePos reg k d).1 =
      mkOutput d
        ((getRenderedPosition T g lg vcx vcy par).1 +
          T.cos (d.orbitAngle * T.pi / 180) * d.satelliteOrbitRadius)
        ((getRenderedPosition T g lg vcx vcy par).2 +
          T.sin (d.orbitAngle * T.pi / 180) * d.satelliteOrbitRadius) 1 := by
  by_cases hs : d.satelliteOrbitSpeed = 0 <;>
    simp [processDot, processPlain, hhit, hpar, hfound, hs]

theorem processDot_out_orphan (reg : Registry) (k : String) (d : DotState)
    (pid : String) (hhit : ellipseHit blend ePos d.id = none)
    (hpar : d.parentId = some pid) (hmiss : alookup reg pid = none) :
    (processDot T g lg vcx vcy blend ePos reg k d).1 = mkOutput d vcx vcy 1 := by
  simp [processDot, processPlain, hhit, hpar, hmiss]

end ProcessLemmas

/-! ## Loop lemmas -/

theorem keys_map_val {α β : Type} (l : List (String × α)) (f : α → β) :
    ((l.map fun kd => (kd.1, f kd.2)).map Prod.fst) = l.map Prod.fst := by
  induction l with
  | nil => rfl
  | cons kd rest ih => simp [ih]

theorem alookup_map_val {α β : Type} (l : List (String × α)) (f : α → β)
    (k : String) :
    alookup (l.map fun kd => (kd.1, f kd.2)) k = (alookup l k).map f := by
  induction l with
  | nil => rfl
  | cons kd rest ih =>
    by_cases h : kd.1 = k <;> simp [alookup, h, ih]

section LoopLemmas

variable (f f2 : Registry → String → DotState → Output × Registry)

theorem renderLoopAux_congr (h : ∀ reg k d, f reg k d = f2 reg k d) :
    ∀ (entries : List (String × DotState)) (reg : Registry),
      renderLoopAux f reg entries = renderLoopAux f2 reg entries := by
  intro entries
  induction entries with
  | nil => intro reg; rfl
  | cons kd rest ih =>
    intro reg
    simp only [renderLoopAux, h, ih]

theorem renderLoopAux_keys
    (hfk : ∀ reg k d, ((f reg k d).2).map Prod.fst = reg.map Prod.fst) :
    ∀ (entries : List (String × DotState)) (reg : Registry),
      ((renderLoopAux f reg entries).2).map Prod.fst = reg.map Prod.fst := by
  intro entries
  induction entries with
  | nil => intro reg; rfl
  | cons kd rest ih =>
    intro reg
    simp only [renderLoopAux]
    rw [ih, hfk]

theorem renderLoopAux_out_keyinv
    (hfk : ∀ reg k d, ((f reg k d).2).map Prod.fst = reg.map Prod.fst)
    (k : String) (d : DotState) (out0 : Output) :
    ∀ (entries : List (String × DotState)) (reg : Registry),
      (entries.map Prod.fst).Nodup → (k, d) ∈ entries →
      (∀ reg', reg'.map Prod.fst = reg.map Prod.fst → (f reg' k d).1 = out0) →
      alookup (renderLoopAux f reg entries).1 k = some out0 := by
  intro entries
  induction entries with
  | nil => intro reg _ hmem _; simp at hmem
  | cons kd rest ih =>
    intro reg hnd hmem hind
    obtain ⟨q, e⟩ := kd
    have hnd2 : (q :: rest.map Prod.fst).Nodup := by simpa using hnd
    obtain ⟨hq1, hq2⟩ := List.nodup_cons.mp hnd2
    by_cases hq : q = k
    · subst hq
      have he : e = d := by
        rcases List.mem_cons.mp hmem with h | h
        · rw [Prod.mk.injEq] at h
          exact h.2.symm
        · exact absurd (List.mem_map.mpr ⟨(q, d), h, rfl⟩) hq1
      subst he
      simp only [renderLoopAux, alookup, if_pos rfl]
      exact congrArg some (hind reg rfl)
    · have hmem' : (k, d) ∈ rest := by
        rcases List.mem_cons.mp hmem with h | h
        · rw [Prod.mk.injEq] at h
          exact absurd h.1.symm hq
        · exact h
      simp only [renderLoopAux, alookup, if_neg hq]
      exact ih (f reg q e).2 hq2 hmem'
        (fun reg' hkeys => hind reg' (hkeys.trans (hfk reg q e)))

theorem renderLoopAux_out_stable
    (hfk : ∀ reg k d, ((f reg k d).2).map Prod.fst = reg.map Prod.fst)
    (hfr : ∀ reg q e, e.parentId = none → (f reg q e).2 = reg)
    (updFn : DotState → DotState)
    (hfc : ∀ reg q e, (f reg q e).2 = reg ∨ (f reg q e).2 = updateFirst reg q updFn)
    (k : String) (d : DotState) (p : String) (par : DotState) (out0 : Output) :
    ∀ (entries : List (String × DotState)) (reg : Registry),
      (entries.map Prod.fst).Nodup → (k, d) ∈ entries →
      alookup reg p = some par →
      (∀ e', (p, e') ∈ entries → e'.parentId = none) →
      (∀ reg', reg'.map Prod.fst = reg.map Prod.fst →
        alookup reg' p = some par → (f reg' k d).1 = out0) →
      alookup (renderLoopAux f reg entries).1 k = some out0 := by
  intro entries
  induction entries with
  | nil => intro reg _ hmem _ _ _; simp at hmem
  | cons kd rest ih =>
    intro reg hnd hmem hpar hroot hind
    obtain ⟨q, e⟩ := kd
    have hnd2 : (q :: rest.map Prod.fst).Nodup := by simpa using hnd
    obtain ⟨hq1, hq2⟩ := List.nodup_cons.mp hnd2
    by_cases hq : q = k
    · subst hq
      have he : e = d := by
        rcases List.mem_cons.mp hmem with h | h
        · rw [Prod.mk.injEq] at h
          exact h.2.symm
        · exact absurd (List.mem_map.mpr ⟨(q, d), h, rfl⟩) hq1
      subst he
      simp only [renderLoopAux, alookup, if_pos rfl]
      exact congrArg some (hind reg rfl hpar)
    · have hmem' : (k, d) ∈ rest := by
        rcases List.mem_cons.mp hmem with h | h
        · rw [Prod.mk.injEq] at h
          exact absurd h.1.symm hq
        · exact h
      have hpar' : alookup (f reg q e).2 p = some par := by
        by_cases hqp : q = p
        · subst hqp
          rw [hfr reg q e (hroot e (List.mem_cons_self _ _))]
          exact hpar
        · rcases hfc reg q e with hcase | hcase
          · rw [hcase]; exact hpar
          · rw [hcase, alookup_updateFirst_ne _ _ _ _ (fun hh => hqp hh.symm)]
            exact hpar
      simp only [renderLoopAux, alookup, if_neg hq]
      exact ih (f reg q e).2 hq2 hmem' hpar'
        (fun e' hmem'' => hroot e' (List.mem_cons_of_mem _ hmem''))
        (fun reg' hkeys hpar'' => hind reg' (hkeys.trans (hfk reg q e)) hpar'')

theorem renderLoopAux_out_all (P : Output → Prop)
    (hf : ∀ reg k d, P (f reg k d).1) :
    ∀ (entries : List (String × DotState)) (reg : Registry)
      (ko : String × Output), ko ∈ (renderLoopAux f reg entries).1 → P ko.2 := by
  intro entries
  induction entries with
  | nil => intro reg ko hmem; simp [renderLoopAux] at hmem
  | cons kd rest ih =>
    intro reg ko hmem
    simp only [renderLoopAux, List.mem_cons] at hmem
    rcases hmem with h | h
    · rw [h]
      exact hf reg kd.1 kd.2
    · exact ih _ ko h

end LoopLemmas

/-! ## The registry after one render -/

section RegSpec

variable (T : Trig) (g : GlobalState) (lg : LogoGeom) (vcx vcy blend : ℚ)
variable (ePos : List (String × EllipseEntry))

theorem renderLoop_reg_spec (dots0 : Registry)
    (hnd : (dots0.map Prod.fst).Nodup) :
    ∀ (suf pre : Registry), dots0 = pre ++ suf →
      (renderLoopAux (processDot T g lg vcx vcy blend ePos)
        ((pre.map fun kd => (kd.1, dotAfterRender dots0 blend ePos kd.2)) ++ suf)
        suf).2
      = dots0.map fun kd => (kd.1, dotAfterRender dots0 blend ePos kd.2) := by
  intro suf
  induction suf with
  | nil =>
    intro pre hpre
    subst hpre
    simp [renderLoopAux]
  | cons kd suf' ih =>
    intro pre hpre
    obtain ⟨k, d⟩ := kd
    have hknot : k ∉ pre.map Prod.fst := by
      rw [hpre] at hnd
      simp only [List.map_append, List.map_cons] at hnd
      have hdisj := (List.nodup_append.mp hnd).2.2
      exact fun hin => hdisj hin (List.mem_cons_self _ _)
    have hkeys :
        (((pre.map fun kd => (kd.1, dotAfterRender dots0 blend ePos kd.2)) ++
          (k, d) :: suf').map Prod.fst) = dots0.map Prod.fst := by
      rw [hpre]
      simp [keys_map_val]
    have hstep :
        (processDot T g lg vcx vcy blend ePos
          ((pre.map fun kd => (kd.1, dotAfterRender dots0 blend ePos kd.2)) ++
            (k, d) :: suf') k d).2
        = ((pre ++ [(k, d)]).map fun kd =>
            (kd.1, dotAfterRender dots0 blend ePos kd.2)) ++ suf' := by
      have hmapsplit :
          ((pre ++ [(k, d)]).map fun kd =>
            (kd.1, dotAfterRender dots0 blend ePos kd.2)) ++ suf'
          = (pre.map fun kd => (kd.1, dotAfterRender dots0 blend ePos kd.2)) ++
            (k, dotAfterRender dots0 blend ePos d) :: suf' := by
        simp
      rw [hmapsplit]
      cases hh : ellipseHit blend ePos d.id with
      | some e =>
        have hda : dotAfterRender dots0 blend ePos d = d := by
          simp [dotAfterRender, hh]
        rw [hda]
        simp [processDot, hh]
      | none =>
        cases hp : d.parentId with
        | none =>
          have hda : dotAfterRender dots0 blend ePos d = d := by
            simp [dotAfterRender, hh, hp]
          rw [hda]
          simp [processDot, processPlain, hh, hp]
        | some pid =>
          have hsome :
              (alookup ((pre.map fun kd =>
                  (kd.1, dotAfterRender dots0 blend ePos kd.2)) ++
                  (k, d) :: suf') pid).isSome
              = (alookup dots0 pid).isSome :=
            alookup_isSome_of_keys_eq _ _ _ hkeys
          cases hl : alookup ((pre.map fun kd =>
              (kd.1, dotAfterRender dots0 blend ePos kd.2)) ++ (k, d) :: suf') pid with
          | none =>
            have hnone : (alookup dots0 pid).isSome = false := by
              rw [← hsome, hl]
              rfl
            have hda : dotAfterRender dots0 blend ePos d = d := by
              simp [dotAfterRender, hh, hp, hnone]
            rw [hda]
            simp [processDot, processPlain, hh, hp, hl]
          | some parent =>
            have hps : (alookup dots0 pid).isSome = true := by
              rw [← hsome, hl]
              rfl
            by_cases hs : d.satelliteOrbitSpeed = 0
            · have hda : dotAfterRender dots0 blend ePos d = d := by
                simp [dotAfterRender, hh, hp, hs]
              rw [hda]
              simp [processDot, processPlain, hh, hp, hl, hs]
            · have hda : dotAfterRender dots0 blend ePos d =
                  { d with orbitAngle := d.orbitAngle + d.satelliteOrbitSpeed } := by
                simp [dotAfterRender, hh, hp, hs, hps]
              rw [hda]
              have hupd :
                  updateFirst ((pre.map fun kd =>
                      (kd.1, dotAfterRender dots0 blend ePos kd.2)) ++ (k, d) :: suf') k
                    (fun cur =>
                      { cur with orbitAngle := cur.orbitAngle + cur.satelliteOrbitSpeed })
                  = (pre.map fun kd =>
                      (kd.1, dotAfterRender dots0 blend ePos kd.2)) ++
                    (k, { d with orbitAngle := d.orbitAngle + d.satelliteOrbitSpeed }) ::
                      suf' := by
                rw [updateFirst_append_notMem]
                · simp [updateFirst]
                · rw [keys_map_val]
                  exact hknot
              simp only [processDot, processPlain, hh, hp, hl]
              simp [hs, hupd, hp]
    simp only [renderLoopAux]
    rw [hstep]
    exact ih (pre ++ [(k, d)]) (by rw [hpre]; simp)

end RegSpec

/-! ## Render-level corollaries -/

theorem render_fst (T : Trig) (env : Env) (s : RenderState) :
    (render T env s).1 =
      (renderLoopAux
        (processDot T s.globalState (logoGeometry env) (env.innerWidth / 2)
          (env.innerHeight / 2) s.ellipseBlend (renderEPos T env s))
        s.dots s.dots).1 := rfl

theorem render_out_keyinv (T : Trig) (env : Env) (s : RenderState) (k : String)
    (d : DotState) (out0 : Output) (hnd : (s.dots.map Prod.fst).Nodup)
    (hmem : (k, d) ∈ s.dots)
    (hind : ∀ reg', reg'.map Prod.fst = s.dots.map Prod.fst →
      (processDot T s.globalState (logoGeometry env) (env.innerWidth / 2)
        (env.innerHeight / 2) s.ellipseBlend (renderEPos T env s) reg' k d).1 = out0) :
    alookup (render T env s).1 k = some out0 := by
  rw [render_fst]
  exact renderLoopAux_out_keyinv _
    (fun reg q e => processDot_keys T s.globalState (logoGeometry env)
      (env.innerWidth / 2) (env.innerHeight / 2) s.ellipseBlend
      (renderEPos T env s) reg q e)
    k d out0 s.dots s.dots hnd hmem hind

theorem render_out_stable (T : Trig) (env : Env) (s : RenderState) (k : String)
    (d : DotState) (p : String) (par : DotState) (out0 : Output)
    (hnd : (s.dots.map Prod.fst).Nodup) (hmem : (k, d) ∈ s.dots)
    (hpar : alookup s.dots p = some par)
    (hroot : ∀ e', (p, e') ∈ s.dots → e'.parentId = none)
    (hind : ∀ reg', reg'.map Prod.fst = s.dots.map Prod.fst →
      alookup reg' p = some par →
      (processDot T s.globalState (logoGeometry env) (env.innerWidth / 2)
        (env.innerHeight / 2) s.ellipseBlend (renderEPos T env s) reg' k d).1 = out0) :
    alookup (render T env s).1 k = some out0 := by
  rw [render_fst]
  exact renderLoopAux_out_stable _
    (fun reg q e => processDot_keys T s.globalState (logoGeometry env)
      (env.innerWidth / 2) (env.innerHeight / 2) s.ellipseBlend
      (renderEPos T env s) reg q e)
    (fun reg q e he => processDot_reg_of_parent_none T s.globalState
      (logoGeometry env) (env.innerWidth / 2) (env.innerHeight / 2)
      s.ellipseBlend (renderEPos T env s) reg q e he)
    (fun cur => { cur with orbitAngle := cur.orbitAngle + cur.satelliteOrbitSpeed })
    (fun reg q e => processDot_reg_cases T s.globalState (logoGeometry env)
      (env.innerWidth / 2) (env.innerHeight / 2) s.ellipseBlend
      (renderEPos T env s) reg q e)
    k d p par out0 s.dots s.dots hnd hmem hpar hroot hind

theorem render_out_all (T : Trig) (env : Env) (s : RenderState)
    (P : Output → Prop)
    (hP : ∀ reg' k d, P (processDot T s.globalState (logoGeometry env)
      (env.innerWidth / 2) (env.innerHeight / 2) s.ellipseBlend
      (renderEPos T env s) reg' k d).1)
    (ko : String × Output) (hmem : ko ∈ (render T env s).1) : P ko.2 := by
  rw [render_fst] at hmem
  exact renderLoopAux_out_all _ P hP s.dots s.dots ko hmem

theorem render_dots_eq (T : Trig) (env : Env) (s : RenderState)
    (hnd : (s.dots.map Prod.fst).Nodup) :
    (render T env s).2.dots =
      s.dots.map fun kd =>
        (kd.1, dotAfterRender s.dots s.ellipseBlend (renderEPos T env s) kd.2) := by
  have hspec := renderLoop_reg_spec T s.globalState (logoGeometry env)
    (env.innerWidth / 2) (env.innerHeight / 2) s.ellipseBlend
    (renderEPos T env s) s.dots hnd s.dots [] rfl
  simp only [List.map_nil, List.nil_append] at hspec
  exact hspec

theorem render_state_eq (T : Trig) (env : Env) (s : RenderState)
    (hnd : (s.dots.map Prod.fst).Nodup) :
    (render T env s).2 =
      { dots := s.dots.map fun kd =>
          (kd.1, dotAfterRender s.dots s.ellipseBlend (renderEPos T env s) kd.2),
        globalState := s.globalState,
        ellipseOrbit := { s.ellipseOrbit with
          centerX := env.innerWidth / 2, centerY := env.innerHeight / 2 },
        ellipseBlend := s.ellipseBlend } := by
  have hdots := render_dots_eq T env s hnd
  have hrest : (render T env s).2 =
      { s with
        dots := (render T env s).2.dots,
        ellipseOrbit := { s.ellipseOrbit with
          centerX := env.innerWidth / 2, centerY := env.innerHeight / 2 } } := rfl
  rw [hrest, hdots]

/-! ## Iterated renders -/

theorem ellipseHit_renderEPos_none_transport (T : Trig) (env env' : Env)
    (s s' : RenderState) (i : String)
    (hkeys : s'.dots.map Prod.fst = s.dots.map Prod.fst)
    (hb : s'.ellipseBlend = s.ellipseBlend)
    (h : ellipseHit s.ellipseBlend (renderEPos T env s) i = none) :
    ellipseHit s'.ellipseBlend (renderEPos T env' s') i = none := by
  by_cases hbp : s'.ellipseBlend > 0
  · have hbp0 : s.ellipseBlend > 0 := hb ▸ hbp
    have h0 : alookup (renderEPos T env s) i = none := by
      simpa [ellipseHit, hbp0] using h
    have e1 := alookup_isSome_of_keys_eq s'.dots s.dots "dot1" hkeys
    have e2 := alookup_isSome_of_keys_eq s'.dots s.dots "dot2" hkeys
    simp only [ellipseHit, if_pos hbp]
    cases h1 : alookup s.dots "dot1" with
    | none =>
      have h1' : alookup s'.dots "dot1" = none := by
        rw [h1] at e1
        cases hc : alookup s'.dots "dot1" with
        | none => rfl
        | some v => rw [hc] at e1; simp at e1
      simp [renderEPos, ellipsePositionsFor, hbp, h1', alookup]
    | some v1 =>
      cases h2 : alookup s.dots "dot2" with
      | none =>
        have h2' : alookup s'.dots "dot2" = none := by
          rw [h2] at e2
          cases hc : alookup s'.dots "dot2" with
          | none => rfl
          | some v => rw [hc] at e2; simp at e2
        simp [renderEPos, ellipsePositionsFor, hbp, h2', alookup]
      | some v2 =>
        have hi1 : ¬("dot1" = i) := by
          intro he
          subst he
          rw [renderEPos] at h0
          simp [ellipsePositionsFor, hbp0, h1, h2, alookup] at h0
        have hi2 : ¬("dot2" = i) := by
          intro he
          subst he
          rw [renderEPos] at h0
          simp [ellipsePositionsFor, hbp0, h1, h2, alookup] at h0
        obtain ⟨w1, h1'⟩ : ∃ w, alookup s'.dots "dot1" = some w := by
          rw [h1] at e1
          cases hc : alookup s'.dots "dot1" with
          | none => rw [hc] at e1; simp at e1
          | some v => exact ⟨v, rfl⟩
        obtain ⟨w2, h2'⟩ : ∃ w, alookup s'.dots "dot2" = some w := by
          rw [h2] at e2
          cases hc : alookup s'.dots "dot2" with
          | none => rw [hc] at e2; simp at e2
          | some v => exact ⟨v, rfl⟩
        simp [renderEPos, ellipsePositionsFor, hbp, h1', h2', alookup, hi1, hi2]
  · simp [ellipseHit, hbp]

theorem iterate_keys_blend (T : Trig) (env : Env) :
    ∀ (N : Nat) (s : RenderState), (s.dots.map Prod.fst).Nodup →
      (iterateRender T env N s).dots.map Prod.fst = s.dots.map Prod.fst ∧
      (iterateRender T env N s).ellipseBlend = s.ellipseBlend ∧
      ((iterateRender T env N s).dots.map Prod.fst).Nodup := by
  intro N
  induction N with
  | zero => intro s hnd; exact ⟨rfl, rfl, hnd⟩
  | succ N ih =>
    intro s hnd
    obtain ⟨hkeys, hblend, hndN⟩ := ih s hnd
    have hstate := render_state_eq T env (iterateRender T env N s) hndN
    constructor
    · show (renderState T env (iterateRender T env N s)).dots.map Prod.fst = _
      rw [renderState, hstate]
      simp only
      rw [keys_map_val]
      exact hkeys
    constructor
    · show (renderState T env (iterateRender T env N s)).ellipseBlend = _
      rw [renderState, hstate]
      exact hblend
    · show ((renderState T env (iterateRender T env N s)).dots.map Prod.fst).Nodup
      rw [renderState, hstate]
      simp only
      rw [keys_map_val, hkeys]
      exact hnd

theorem iterate_sat_angle (T : Trig) (env : Env) (k : String) (d : DotState)
    (p : String) (s : RenderState) (hnd : (s.dots.map Prod.fst).Nodup)
    (hlook : alookup s.dots k = some d) (hpid : d.parentId = some p)
    (hps : (alookup s.dots p).isSome = true)
    (hhit : ellipseHit s.ellipseBlend (renderEPos T env s) d.id = none) :
    ∀ N : Nat,
      alookup (iterateRender T env N s).dots k =
        some { d with orbitAngle := d.orbitAngle + (N : ℚ) * d.satelliteOrbitSpeed } := by
  intro N
  induction N with
  | zero => simpa using hlook
  | succ N ih =>
    obtain ⟨hkeys, hblend, hndN⟩ := iterate_keys_blend T env N s hnd
    have hstate := render_state_eq T env (iterateRender T env N s) hndN
    show alookup (renderState T env (iterateRender T env N s)).dots k = _
    rw [renderState, hstate]
    simp only
    rw [alookup_map_val, ih]
    simp only [Option.map_some']
    have hhitN : ellipseHit (iterateRender T env N s).ellipseBlend
        (renderEPos T env (iterateRender T env N s))
        ({ d with orbitAngle := d.orbitAngle + (N : ℚ) * d.satelliteOrbitSpeed } : DotState).id
        = none :=
      ellipseHit_renderEPos_none_transport T env env s (iterateRender T env N s)
        d.id hkeys hblend hhit
    have hpsN : (alookup (iterateRender T env N s).dots p).isSome = true := by
      rw [alookup_isSome_of_keys_eq _ s.dots p hkeys]
      exact hps
    by_cases hs : d.satelliteOrbitSpeed = 0
    · simp [dotAfterRender, hhitN, hpid, hpsN, hs]
    · simp only [dotAfterRender, hhitN, hpid, hpsN]
      simp [hs, DotState.mk.injEq, hpid]
      ring

/-! ## Claim C1 -/

/-- C1: for every dot with no parent, at ellipse blend 0 the compositor's
final position is the closed-form base-position/global-orbit blend:
`basePos + (orbitPos − basePos) · min(orbitRadius / 100, 1)`, where the
base position is the logo centre offset by the logo-size fractions and the
pixel offsets, and the orbit position is the viewport centre plus
`orbitRadius · (cos, sin)` of the global angle plus the dot's own angle
plus the sinusoidal phase drift (present only for dots with positive own
orbit angle). -/
theorem C1_root_dot_blend_zero_position (T : Trig) (env : Env)
    (s : RenderState) (k : String) (d : DotState)
    (hnd : (s.dots.map Prod.fst).Nodup) (hmem : (k, d) ∈ s.dots)
    (hpar : d.parentId = none) (hblend : s.ellipseBlend = 0) :
    (alookup (render T env s).1 k).map (fun o => (o.x, o.y)) =
      some
        (let lg := logoGeometry env
         let baseX := lg.logoX + lg.logoWidth * d.baseXPercent + d.offsetX
         let baseY := lg.logoY + lg.logoHeight * d.baseYPercent + d.offsetY
         let drift := if d.orbitAngle > 0 then
             T.sin (s.globalState.orbitAngle * (2/25) * T.pi / 180) * 20 else 0
         let ang := (s.globalState.orbitAngle + d.orbitAngle + drift) * T.pi / 180
         let orbitX := env.innerWidth / 2 + T.cos ang * s.globalState.orbitRadius
         let orbitY := env.innerHeight / 2 + T.sin ang * s.globalState.orbitRadius
         let bf := min (s.globalState.orbitRadius / 100) 1
         (baseX + (orbitX - baseX) * bf, baseY + (orbitY - baseY) * bf)) := by
  have hne : ellipseHit s.ellipseBlend (renderEPos T env s) d.id = none := by
    simp [ellipseHit, hblend]
  have h := render_out_keyinv T env s k d
    (mkOutput d
      (getRenderedPosition T s.globalState (logoGeometry env)
        (env.innerWidth / 2) (env.innerHeight / 2) d).1
      (getRenderedPosition T s.globalState (logoGeometry env)
        (env.innerWidth / 2) (env.innerHeight / 2) d).2 1) hnd hmem
    (fun reg' _ => processDot_out_root T s.globalState (logoGeometry env)
      (env.innerWidth / 2) (env.innerHeight / 2) s.ellipseBlend
      (renderEPos T env s) reg' k d hne hpar)
  rw [h]
  simp [mkOutput, getRenderedPosition]

/-- Witness for C1: the concrete one-dot state renders at `(492, 400)`,
which is what the closed form evaluates to there. -/
theorem C1_witness :
    (alookup (render Tid envSample sampleLogoState).1 "d1").map
        (fun o => (o.x, o.y)) = some (492, 400) := by
  have h := C1_root_dot_blend_zero_position Tid envSample sampleLogoState "d1"
    ({ defaultDot "d1" with baseXPercent := -(1/50) })
    (by simp [sampleLogoState]) (by simp [sampleLogoState])
    (by simp [defaultDot]) rfl
  rw [h]
  norm_num [envSample, sampleLogoState, logoGeometry, defaultDot, Tid, min_def]

/-! ## Claim C6 -/

/-- C6: with the logo element absent the compositor falls back to a 400×100
rectangle centred in the viewport (and, being a total function, never
throws); in particular on a 1000×800 viewport with no logo, zero global
radius and zero blend, the parentless dot with `baseXPercent = −0.02`,
`baseYPercent = 0` and zero offsets renders centred at `(492, 400)`. -/
theorem C6_logo_fallback (T : Trig) (env : Env) (henv : env.logoRect = none) :
    logoGeometry env =
      ⟨env.innerWidth / 2, env.innerHeight / 2, 400, 100⟩ ∧
    (alookup (render T envSample sampleLogoState).1 "d1").map
        (fun o => (o.x, o.y)) = some (492, 400) := by
  constructor
  · simp [logoGeometry, henv]
  · have hne : ellipseHit sampleLogoState.ellipseBlend
        (renderEPos T envSample sampleLogoState)
        ({ defaultDot "d1" with baseXPercent := -(1/50) } : DotState).id = none := by
      simp [ellipseHit, sampleLogoState]
    have h := render_out_keyinv T envSample sampleLogoState "d1"
      ({ defaultDot "d1" with baseXPercent := -(1/50) })
      (mkOutput ({ defaultDot "d1" with baseXPercent := -(1/50) })
        (getRenderedPosition T sampleLogoState.globalState
          (logoGeometry envSample) (envSample.innerWidth / 2)
          (envSample.innerHeight / 2)
          ({ defaultDot "d1" with baseXPercent := -(1/50) })).1
        (getRenderedPosition T sampleLogoState.globalState
          (logoGeometry envSample) (envSample.innerWidth / 2)
          (envSample.innerHeight / 2)
          ({ defaultDot "d1" with baseXPercent := -(1/50) })).2 1)
      (by simp [sampleLogoState]) (by simp [sampleLogoState])
      (fun reg' _ => processDot_out_root T sampleLogoState.globalState
        (logoGeometry envSample) (envSample.innerWidth / 2)
        (envSample.innerHeight / 2) sampleLogoState.ellipseBlend
        (renderEPos T envSample sampleLogoState) reg' "d1"
        ({ defaultDot "d1" with baseXPercent := -(1/50) }) hne (by simp [defaultDot]))
    rw [h]
    norm_num [mkOutput, getRenderedPosition, logoGeometry, envSample,
      sampleLogoState, defaultDot, min_def]

/-- Witness for C6 at the concrete environment. -/
theorem C6_witness :
    logoGeometry envSample =
      ⟨envSample.innerWidth / 2, envSample.innerHeight / 2, 400, 100⟩ ∧
    (alookup (render Tid envSample sampleLogoState).1 "d1").map
        (fun o => (o.x, o.y)) = some (492, 400) :=
  C6_logo_fallback Tid envSample rfl

/-! ## Claim C7 -/

/-- C7 counterexample: in `orphanEllipseState` the primary dot `dot1`
carries the unresolved parent id `"ghost"` while the ellipse blend is 1;
the compositor renders it at x = 700 (the ellipse position), not at the
viewport-centre x = 500 the claim requires.  (`Tone` returns exactly the
values the real `sin`/`cos` take at the angles this input evaluates:
`sin 0 = 0` is not needed for the x coordinate, `cos 0 = 1` is.) -/
theorem C7_counterexample :
    alookup orphanEllipseState.dots "ghost" = none ∧
    (alookup (render Tone envSample orphanEllipseState).1 "dot1").map
        (fun o => o.x) = some 700 ∧
    (700 : ℚ) ≠ envSample.innerWidth / 2 := by
  refine ⟨by simp [orphanEllipseState, alookup], ?_, by norm_num [envSample]⟩
  norm_num [render, renderEPos, ellipsePositionsFor, ellipseHit, renderLoopAux,
    processDot, processPlain, getRenderedPosition, mkOutput, logoGeometry,
    alookup, orphanEllipseState, defaultDot, defaultEllipse, Tone, envSample,
    min_def]

/-- C7 (amended): a dot whose parent id does not resolve to a registry
entry is positioned at the viewport centre — provided the dot is not on
the ellipse path (blend 0, a primary dot missing, or a non-primary id);
the ellipse branch takes precedence over the missing-parent fallback. -/
theorem C7_missing_parent_viewport_center (T : Trig) (env : Env)
    (s : RenderState) (k : String) (d : DotState) (p : String)
    (hnd : (s.dots.map Prod.fst).Nodup) (hmem : (k, d) ∈ s.dots)
    (hpid : d.parentId = some p) (hmiss : alookup s.dots p = none)
    (hne : ellipseHit s.ellipseBlend (renderEPos T env s) d.id = none) :
    (alookup (render T env s).1 k).map (fun o => (o.x, o.y)) =
      some (env.innerWidth / 2, env.innerHeight / 2) := by
  have h := render_out_keyinv T env s k d
    (mkOutput d (env.innerWidth / 2) (env.innerHeight / 2) 1) hnd hmem
    (fun reg' hkeys => processDot_out_orphan T s.globalState (logoGeometry env)
      (env.innerWidth / 2) (env.innerHeight / 2) s.ellipseBlend
      (renderEPos T env s) reg' k d p hne hpid
      (by
        rw [alookup_eq_none_iff, hkeys]
        exact (alookup_eq_none_iff _ _).mp hmiss))
  rw [h]
  simp [mkOutput]

/-- Witness for the amended C7 at a concrete input. -/
theorem C7_witness :
    (alookup (render Tid envSample orphanPlainState).1 "s1").map
        (fun o => (o.x, o.y)) =
      some (envSample.innerWidth / 2, envSample.innerHeight / 2) :=
  C7_missing_parent_viewport_center Tid envSample orphanPlainState "s1"
    ({ defaultDot "s1" with parentId := some "ghost" }) "ghost"
    (by simp [orphanPlainState]) (by simp [orphanPlainState]) rfl
    (by simp [orphanPlainState, alookup])
    (by simp [ellipseHit, orphanPlainState])

/-! ## Claim C5 -/

theorem processPlain_dm (T : Trig) (g : GlobalState) (lg : LogoGeom)
    (vcx vcy : ℚ) (reg : Registry) (k : String) (d : DotState) :
    (processPlain T g lg vcx vcy reg k d).1.depthMultiplier = 1 := by
  cases hp : d.parentId with
  | none => simp [processPlain, hp, mkOutput]
  | some pid =>
    cases hl : alookup reg pid with
    | none => simp [processPlain, hp, hl, mkOutput]
    | some parent =>
      by_cases hs : d.satelliteOrbitSpeed = 0 <;>
        simp [processPlain, hp, hl, hs, mkOutput]

theorem ellipsePositionsFor_depthFactor (T : Trig) (eo : EllipseOrbitState)
    (b : ℚ) (reg : Registry) (i : String) (e : EllipseEntry)
    (h : alookup (ellipsePositionsFor T eo b reg) i = some e) :
    e.depthFactor = 1 + T.sin (eo.angle * T.pi / 180) * eo.depthScale * b ∨
    e.depthFactor = 1 + T.sin (eo.angle * T.pi / 180 + T.pi +
      T.sin (eo.angle * (1/20) * T.pi / 180) * 25 * T.pi / 180) *
        eo.depthScale * b := by
  unfold ellipsePositionsFor at h
  by_cases hb : b > 0
  · rw [if_pos hb] at h
    cases h1 : alookup reg "dot1" with
    | none => rw [h1] at h; simp [alookup] at h
    | some v1 =>
      cases h2 : alookup reg "dot2" with
      | none => rw [h1, h2] at h; simp [alookup] at h
      | some v2 =>
        rw [h1, h2] at h
        by_cases hi1 : ("dot1" : String) = i
        · simp [alookup, hi1] at h
          left
          rw [← h]
        · by_cases hi2 : ("dot2" : String) = i
          · simp [alookup, hi1, hi2] at h
            right
            rw [← h]
            norm_num
          · simp [alookup, hi1, hi2] at h
  · rw [if_neg hb] at h
    simp [alookup] at h

/-- C5: under `depthScale ≥ 0`, blend in `[0, 1]` and the analytic bound
`|sin| ≤ 1`, every depth multiplier the compositor applies (for every dot,
the primary dots included) lies in
`[1 − depthScale·blend, 1 + depthScale·blend]`. -/
theorem C5_depth_multiplier_bounds (T : Trig) (env : Env) (s : RenderState)
    (hsin : ∀ x, -1 ≤ T.sin x ∧ T.sin x ≤ 1)
    (hds : 0 ≤ s.ellipseOrbit.depthScale)
    (hb0 : 0 ≤ s.ellipseBlend) (hb1 : s.ellipseBlend ≤ 1)
    (ko : String × Output) (hmem : ko ∈ (render T env s).1) :
    1 - s.ellipseOrbit.depthScale * s.ellipseBlend ≤ ko.2.depthMultiplier ∧
    ko.2.depthMultiplier ≤ 1 + s.ellipseOrbit.depthScale * s.ellipseBlend := by
  have hdsb : 0 ≤ s.ellipseOrbit.depthScale * s.ellipseBlend :=
    mul_nonneg hds hb0
  refine render_out_all T env s
    (fun o => 1 - s.ellipseOrbit.depthScale * s.ellipseBlend ≤ o.depthMultiplier ∧
      o.depthMultiplier ≤ 1 + s.ellipseOrbit.depthScale * s.ellipseBlend)
    ?_ ko hmem
  intro reg' k d
  cases hh : ellipseHit s.ellipseBlend (renderEPos T env s) d.id with
  | none =>
    have hdm : (processDot T s.globalState (logoGeometry env)
        (env.innerWidth / 2) (env.innerHeight / 2) s.ellipseBlend
        (renderEPos T env s) reg' k d).1.depthMultiplier = 1 := by
      simp only [processDot, hh]
      exact processPlain_dm T s.globalState (logoGeometry env)
        (env.innerWidth / 2) (env.innerHeight / 2) reg' k d
    rw [hdm]
    constructor <;> linarith
  | some e =>
    have hlook : alookup (renderEPos T env s) d.id = some e := by
      by_cases hbp : s.ellipseBlend > 0
      · simpa [ellipseHit, hbp] using hh
      · simp [ellipseHit, hbp] at hh
    have hdf := ellipsePositionsFor_depthFactor T _ s.ellipseBlend s.dots d.id e hlook
    rw [processDot_out_ellipse T s.globalState (logoGeometry env)
      (env.innerWidth / 2) (env.innerHeight / 2) s.ellipseBlend
      (renderEPos T env s) reg' k d e hh]
    simp only [mkOutput]
    have hbb : s.ellipseBlend * s.ellipseBlend ≤ s.ellipseBlend :=
      mul_le_of_le_one_right hb0 hb1
    rcases hdf with hdf | hdf <;>
      rw [hdf] <;>
      obtain ⟨hs1, hs2⟩ := hsin _ <;>
      constructor <;>
      nlinarith [mul_nonneg hds (mul_nonneg hb0 hb0),
        mul_nonneg hds (sub_nonneg.mpr hbb)]

/-- Witness for C5 at a concrete render output. -/
theorem C5_witness :
    1 - sampleLogoState.ellipseOrbit.depthScale * sampleLogoState.ellipseBlend ≤
      (("d1", sampleOutput) : String × Output).2.depthMultiplier ∧
    (("d1", sampleOutput) : String × Output).2.depthMultiplier ≤
      1 + sampleLogoState.ellipseOrbit.depthScale * sampleLogoState.ellipseBlend :=
  C5_depth_multiplier_bounds Tid envSample sampleLogoState
    (fun x => by norm_num [Tid])
    (by norm_num [sampleLogoState, defaultEllipse])
    (by norm_num [sampleLogoState]) (by norm_num [sampleLogoState])
    ("d1", sampleOutput)
    (by norm_num [render, renderEPos, ellipsePositionsFor, ellipseHit,
      renderLoopAux, processDot, processPlain, getRenderedPosition, mkOutput,
      logoGeometry, alookup, sampleLogoState, defaultDot, defaultEllipse, Tid,
      envSample, sampleOutput, colorsDark, min_def])

/-! ## Claim C4 -/

theorem ellipsePositionsFor_lookup_dot1 (T : Trig) (eo : EllipseOrbitState)
    (b : ℚ) (reg : Registry) (e : EllipseEntry)
    (h : alookup (ellipsePositionsFor T eo b reg) "dot1" = some e) :
    e.depthFactor = 1 + T.sin (eo.angle * T.pi / 180) * eo.depthScale * b := by
  unfold ellipsePositionsFor at h
  by_cases hb : b > 0
  · rw [if_pos hb] at h
    cases h1 : alookup reg "dot1" with
    | none => rw [h1] at h; simp [alookup] at h
    | some v1 =>
      cases h2 : alookup reg "dot2" with
      | none => rw [h1, h2] at h; simp [alookup] at h
      | some v2 =>
        rw [h1, h2] at h
        simp [alookup] at h
        rw [← h]
  · rw [if_neg hb] at h
    simp [alookup] at h

theorem ellipsePositionsFor_lookup_dot2 (T : Trig) (eo : EllipseOrbitState)
    (b : ℚ) (reg : Registry) (e : EllipseEntry)
    (h : alookup (ellipsePositionsFor T eo b reg) "dot2" = some e) :
    e.depthFactor = 1 + T.sin (eo.angle * T.pi / 180 + T.pi +
      T.sin (eo.angle * (1/20) * T.pi / 180) * 25 * T.pi / 180) *
        eo.depthScale * b := by
  unfold ellipsePositionsFor at h
  by_cases hb : b > 0
  · rw [if_pos hb] at h
    cases h1 : alookup reg "dot1" with
    | none => rw [h1] at h; simp [alookup] at h
    | some v1 =>
      cases h2 : alookup reg "dot2" with
      | none => rw [h1, h2] at h; simp [alookup] at h
      | some v2 =>
        rw [h1, h2] at h
        simp [alookup] at h
        rw [← h]
        norm_num
  · rw [if_neg hb] at h
    simp [alookup] at h

/-- C4 counterexample: at `halfBlendState` (blend ½, depthScale 0.4,
ellipse angle 90° where the real sine is 1, which `Tone` returns), the
compositor renders `dot1` with width 26.4 = 132/5, while the claim's
formula `baseSize × scale × depthFactor × scaleX` gives
24 × 1.2 = 28.8 — the raw depth factor is *not* the size scale actually
applied when 0 < blend < 1. -/
theorem C4_counterexample :
    (alookup (render Tone envSample halfBlendState).1 "dot1").map
        (fun o => o.width) = some (132/5) ∧
    (132/5 : ℚ) ≠
      24 * 1 * (1 + Tone.sin (halfBlendState.ellipseOrbit.angle * Tone.pi / 180) *
        halfBlendState.ellipseOrbit.depthScale * halfBlendState.ellipseBlend) * 1 := by
  constructor
  · norm_num [render, renderEPos, ellipsePositionsFor, ellipseHit, renderLoopAux,
      processDot, processPlain, getRenderedPosition, mkOutput, logoGeometry,
      alookup, halfBlendState, defaultDot, defaultEllipse, Tone, envSample,
      min_def]
  · norm_num [Tone, halfBlendState, defaultEllipse]

/-- C4 (amended): in ellipse mode each primary dot's depth factor is
`1 + sin(its ellipse angle) × depthScale × blend`, but the multiplicative
size scale actually applied is the re-blended
`1 + (depthFactor − 1) × blend`: the rendered width is
`baseSize × scale × (1 + (depthFactor − 1) × blend) × scaleX` (height with
`scaleY`), which agrees with the claim's `baseSize × scale × depthFactor ×
scaleX` only at blend 1. -/
theorem C4_depth_factor_applied_scale (T : Trig) (env : Env) (s : RenderState)
    (k : String) (d : DotState) (e : EllipseEntry)
    (hnd : (s.dots.map Prod.fst).Nodup) (hmem : (k, d) ∈ s.dots)
    (hhit : ellipseHit s.ellipseBlend (renderEPos T env s) d.id = some e) :
    ((alookup (render T env s).1 k).map (fun o => (o.width, o.height)) =
      some (d.baseSize * d.scale * (1 + (e.depthFactor - 1) * s.ellipseBlend) *
              d.scaleX,
            d.baseSize * d.scale * (1 + (e.depthFactor - 1) * s.ellipseBlend) *
              d.scaleY)) ∧
    (d.id = "dot1" → e.depthFactor =
      1 + T.sin (s.ellipseOrbit.angle * T.pi / 180) *
        s.ellipseOrbit.depthScale * s.ellipseBlend) ∧
    (d.id = "dot2" → e.depthFactor =
      1 + T.sin (s.ellipseOrbit.angle * T.pi / 180 + T.pi +
        T.sin (s.ellipseOrbit.angle * (1/20) * T.pi / 180) * 25 * T.pi / 180) *
        s.ellipseOrbit.depthScale * s.ellipseBlend) := by
  have hlook : alookup (renderEPos T env s) d.id = some e := by
    by_cases hbp : s.ellipseBlend > 0
    · simpa [ellipseHit, hbp] using hhit
    · simp [ellipseHit, hbp] at hhit
  refine ⟨?_, ?_, ?_⟩
  · have h := render_out_keyinv T env s k d
      (mkOutput d
        ((getRenderedPosition T s.globalState (logoGeometry env)
          (env.innerWidth / 2) (env.innerHeight / 2) d).1 +
          (e.x - (getRenderedPosition T s.globalState (logoGeometry env)
            (env.innerWidth / 2) (env.innerHeight / 2) d).1) * s.ellipseBlend)
        ((getRenderedPosition T s.globalState (logoGeometry env)
          (env.innerWidth / 2) (env.innerHeight / 2) d).2 +
          (e.y - (getRenderedPosition T s.globalState (logoGeometry env)
            (env.innerWidth / 2) (env.innerHeight / 2) d).2) * s.ellipseBlend)
        (1 + (e.depthFactor - 1) * s.ellipseBlend)) hnd hmem
      (fun reg' _ => processDot_out_ellipse T s.globalState (logoGeometry env)
        (env.innerWidth / 2) (env.innerHeight / 2) s.ellipseBlend
        (renderEPos T env s) reg' k d e hhit)
    rw [h]
    simp [mkOutput]
  · intro hid
    rw [hid] at hlook
    have hd := ellipsePositionsFor_lookup_dot1 T
      { s.ellipseOrbit with centerX := env.innerWidth / 2, centerY := env.innerHeight / 2 }
      s.ellipseBlend s.dots e (by exact hlook)
    simpa using hd
  · intro hid
    rw [hid] at hlook
    have hd := ellipsePositionsFor_lookup_dot2 T
      { s.ellipseOrbit with centerX := env.innerWidth / 2, centerY := env.innerHeight / 2 }
      s.ellipseBlend s.dots e (by exact hlook)
    simpa using hd

/-- Witness for the amended C4 at a concrete input. -/
theorem C4_witness :
    ((alookup (render Tid envSample sampleEllipseState).1 "dot1").map
        (fun o => (o.width, o.height)) =
      some (sampleDot1.baseSize * sampleDot1.scale *
              (1 + (sampleEllipseEntry.depthFactor - 1) *
                sampleEllipseState.ellipseBlend) * sampleDot1.scaleX,
            sampleDot1.baseSize * sampleDot1.scale *
              (1 + (sampleEllipseEntry.depthFactor - 1) *
                sampleEllipseState.ellipseBlend) * sampleDot1.scaleY)) ∧
    (sampleDot1.id = "dot1" → sampleEllipseEntry.depthFactor =
      1 + Tid.sin (sampleEllipseState.ellipseOrbit.angle * Tid.pi / 180) *
        sampleEllipseState.ellipseOrbit.depthScale *
        sampleEllipseState.ellipseBlend) ∧
    (sampleDot1.id = "dot2" → sampleEllipseEntry.depthFactor =
      1 + Tid.sin (sampleEllipseState.ellipseOrbit.angle * Tid.pi / 180 + Tid.pi +
        Tid.sin (sampleEllipseState.ellipseOrbit.angle * (1/20) * Tid.pi / 180) *
          25 * Tid.pi / 180) *
        sampleEllipseState.ellipseOrbit.depthScale *
        sampleEllipseState.ellipseBlend) :=
  C4_depth_factor_applied_scale Tid envSample sampleEllipseState "dot1"
    sampleDot1 sampleEllipseEntry
    (by simp [sampleEllipseState])
    (by simp [sampleEllipseState])
    (by norm_num [ellipseHit, renderEPos, ellipsePositionsFor, alookup,
      sampleEllipseState, sampleDot1, defaultDot, defaultEllipse, Tid,
      envSample, sampleEllipseEntry])

/-! ## Claim C3 -/

theorem processDot_blend_zero (T : Trig) (g : GlobalState) (lg : LogoGeom)
    (vcx vcy : ℚ) (ePos : List (String × EllipseEntry)) (reg : Registry)
    (k : String) (d : DotState) :
    processDot T g lg vcx vcy 0 ePos reg k d =
      processPlain T g lg vcx vcy reg k d := by
  have hh : ellipseHit (0 : ℚ) ePos d.id = none := by simp [ellipseHit]
  simp [processDot, hh]

theorem render_blend_zero_eq_globalOnly (T : Trig) (env : Env)
    (s0 : RenderState) :
    (render T env { s0 with ellipseBlend := 0 }).1 =
      (renderGlobalOnly T env s0).1 := by
  have hcong := renderLoopAux_congr
    (processDot T s0.globalState (logoGeometry env) (env.innerWidth / 2)
      (env.innerHeight / 2) 0 (renderEPos T env { s0 with ellipseBlend := 0 }))
    (processPlain T s0.globalState (logoGeometry env) (env.innerWidth / 2)
      (env.innerHeight / 2))
    (fun reg k d => processDot_blend_zero T s0.globalState (logoGeometry env)
      (env.innerWidth / 2) (env.innerHeight / 2)
      (renderEPos T env { s0 with ellipseBlend := 0 }) reg k d)
    s0.dots s0.dots
  calc (render T env { s0 with ellipseBlend := 0 }).1
      = (renderLoopAux (processDot T s0.globalState (logoGeometry env)
          (env.innerWidth / 2) (env.innerHeight / 2) 0
          (renderEPos T env { s0 with ellipseBlend := 0 })) s0.dots s0.dots).1 := rfl
    _ = (renderLoopAux (processPlain T s0.globalState (logoGeometry env)
          (env.innerWidth / 2) (env.innerHeight / 2)) s0.dots s0.dots).1 := by
        rw [hcong]
    _ = (renderGlobalOnly T env s0).1 := rfl

theorem ellipsePositionsFor_dot1_entry (T : Trig) (eo : EllipseOrbitState)
    (b : ℚ) (reg : Registry) (v1 v2 : DotState) (hb : b > 0)
    (h1 : alookup reg "dot1" = some v1) (h2 : alookup reg "dot2" = some v2) :
    alookup (ellipsePositionsFor T eo b reg) "dot1" =
      some { x := eo.centerX + T.cos (eo.angle * T.pi / 180) * eo.radiusX,
             y := eo.centerY + T.sin (eo.angle * T.pi / 180) * eo.radiusY,
             depthFactor :=
               1 + T.sin (eo.angle * T.pi / 180) * eo.depthScale * b } := by
  have hne : ("dot1" : String) ≠ "dot2" := by decide
  simp [ellipsePositionsFor, hb, h1, h2, alookup, hne]

theorem ellipsePositionsFor_dot2_entry (T : Trig) (eo : EllipseOrbitState)
    (b : ℚ) (reg : Registry) (v1 v2 : DotState) (hb : b > 0)
    (h1 : alookup reg "dot1" = some v1) (h2 : alookup reg "dot2" = some v2) :
    alookup (ellipsePositionsFor T eo b reg) "dot2" =
      some { x := eo.centerX + T.cos (eo.angle * T.pi / 180 + T.pi +
                T.sin (eo.angle * (1/20) * T.pi / 180) * 25 * T.pi / 180) *
                eo.radiusX *
                (1 + T.sin (eo.angle * (3/100) * T.pi / 180) * (3/20)),
             y := eo.centerY + T.sin (eo.angle * T.pi / 180 + T.pi +
                T.sin (eo.angle * (1/20) * T.pi / 180) * 25 * T.pi / 180) *
                eo.radiusY *
                (1 + T.sin (eo.angle * (3/100) * T.pi / 180) * (3/20)),
             depthFactor :=
               1 + T.sin (eo.angle * T.pi / 180 + T.pi +
                 T.sin (eo.angle * (1/20) * T.pi / 180) * 25 * T.pi / 180) *
                 eo.depthScale * b } := by
  have hne : ("dot1" : String) ≠ "dot2" := by decide
  norm_num [ellipsePositionsFor, hb, h1, h2, alookup, hne]

/-- C3: (i) with the blend scalar at exactly 0 the compositor's per-dot
output list is identical, entry for entry, to the global-orbit-only
pipeline with no ellipse computation at all (`renderGlobalOnly`); (ii)
with the blend scalar at exactly 1 each primary dot's position equals the
pure ellipse formula — ellipse centre (the viewport centre) plus
`(radiusX, radiusY) · (cos, sin)` of its ellipse angle, the second dot
offset by π plus the phase drift and scaled by its radius variation. -/
theorem C3_blend_endpoints (T : Trig) (env : Env) (s0 s1 : RenderState)
    (d1 d2 : DotState) (hnd : (s1.dots.map Prod.fst).Nodup)
    (hb1 : s1.ellipseBlend = 1)
    (hd1 : alookup s1.dots "dot1" = some d1) (hid1 : d1.id = "dot1")
    (hd2 : alookup s1.dots "dot2" = some d2) (hid2 : d2.id = "dot2") :
    (render T env { s0 with ellipseBlend := 0 }).1 =
      (renderGlobalOnly T env s0).1 ∧
    (alookup (render T env s1).1 "dot1").map (fun o => (o.x, o.y)) =
      some (env.innerWidth / 2 +
              T.cos (s1.ellipseOrbit.angle * T.pi / 180) * s1.ellipseOrbit.radiusX,
            env.innerHeight / 2 +
              T.sin (s1.ellipseOrbit.angle * T.pi / 180) * s1.ellipseOrbit.radiusY) ∧
    (alookup (render T env s1).1 "dot2").map (fun o => (o.x, o.y)) =
      some (env.innerWidth / 2 +
              T.cos (s1.ellipseOrbit.angle * T.pi / 180 + T.pi +
                T.sin (s1.ellipseOrbit.angle * (1/20) * T.pi / 180) * 25 * T.pi / 180) *
                s1.ellipseOrbit.radiusX *
                (1 + T.sin (s1.ellipseOrbit.angle * (3/100) * T.pi / 180) * (3/20)),
            env.innerHeight / 2 +
              T.sin (s1.ellipseOrbit.angle * T.pi / 180 + T.pi +
                T.sin (s1.ellipseOrbit.angle * (1/20) * T.pi / 180) * 25 * T.pi / 180) *
                s1.ellipseOrbit.radiusY *
                (1 + T.sin (s1.ellipseOrbit.angle * (3/100) * T.pi / 180) * (3/20))) := by
  have hbpos : s1.ellipseBlend > 0 := by rw [hb1]; norm_num
  have he1 := ellipsePositionsFor_dot1_entry T
    { s1.ellipseOrbit with centerX := env.innerWidth / 2, centerY := env.innerHeight / 2 }
    s1.ellipseBlend s1.dots d1 d2 hbpos hd1 hd2
  have he2 := ellipsePositionsFor_dot2_entry T
    { s1.ellipseOrbit with centerX := env.innerWidth / 2, centerY := env.innerHeight / 2 }
    s1.ellipseBlend s1.dots d1 d2 hbpos hd1 hd2
  refine ⟨render_blend_zero_eq_globalOnly T env s0, ?_, ?_⟩
  · have hhit : ellipseHit s1.ellipseBlend (renderEPos T env s1) d1.id =
        alookup (renderEPos T env s1) "dot1" := by
      rw [hid1]
      simp [ellipseHit, hbpos]
    rw [show renderEPos T env s1 = ellipsePositionsFor T
        { s1.ellipseOrbit with centerX := env.innerWidth / 2, centerY := env.innerHeight / 2 }
        s1.ellipseBlend s1.dots from rfl, he1] at hhit
    obtain ⟨e1, he1', he1e⟩ :
        ∃ e1, ellipseHit s1.ellipseBlend (renderEPos T env s1) d1.id = some e1 ∧
          e1.x = env.innerWidth / 2 +
              T.cos (s1.ellipseOrbit.angle * T.pi / 180) * s1.ellipseOrbit.radiusX ∧
          e1.y = env.innerHeight / 2 +
              T.sin (s1.ellipseOrbit.angle * T.pi / 180) * s1.ellipseOrbit.radiusY := by
      refine ⟨_, hhit, by norm_num, by norm_num⟩
    have h := render_out_keyinv T env s1 "dot1" d1
      (mkOutput d1
        ((getRenderedPosition T s1.globalState (logoGeometry env)
          (env.innerWidth / 2) (env.innerHeight / 2) d1).1 +
          (e1.x - (getRenderedPosition T s1.globalState (logoGeometry env)
            (env.innerWidth / 2) (env.innerHeight / 2) d1).1) * s1.ellipseBlend)
        ((getRenderedPosition T s1.globalState (logoGeometry env)
          (env.innerWidth / 2) (env.innerHeight / 2) d1).2 +
          (e1.y - (getRenderedPosition T s1.globalState (logoGeometry env)
            (env.innerWidth / 2) (env.innerHeight / 2) d1).2) * s1.ellipseBlend)
        (1 + (e1.depthFactor - 1) * s1.ellipseBlend))
      hnd (alookup_mem _ _ _ hd1)
      (fun reg' _ => processDot_out_ellipse T s1.globalState (logoGeometry env)
        (env.innerWidth / 2) (env.innerHeight / 2) s1.ellipseBlend
        (renderEPos T env s1) reg' "dot1" d1 e1 he1')
    rw [h]
    simp only [mkOutput, Option.map_some']
    rw [he1e.1, he1e.2, hb1]
    norm_num
  · have hhit : ellipseHit s1.ellipseBlend (renderEPos T env s1) d2.id =
        alookup (renderEPos T env s1) "dot2" := by
      rw [hid2]
      simp [ellipseHit, hbpos]
    rw [show renderEPos T env s1 = ellipsePositionsFor T
        { s1.ellipseOrbit with centerX := env.innerWidth / 2, centerY := env.innerHeight / 2 }
        s1.ellipseBlend s1.dots from rfl, he2] at hhit
    obtain ⟨e2, he2', he2e⟩ :
        ∃ e2, ellipseHit s1.ellipseBlend (renderEPos T env s1) d2.id = some e2 ∧
          e2.x = env.innerWidth / 2 +
              T.cos (s1.ellipseOrbit.angle * T.pi / 180 + T.pi +
                T.sin (s1.ellipseOrbit.angle * (1/20) * T.pi / 180) * 25 *
                  T.pi / 180) * s1.ellipseOrbit.radiusX *
              (1 + T.sin (s1.ellipseOrbit.angle * (3/100) * T.pi / 180) * (3/20)) ∧
          e2.y = env.innerHeight / 2 +
              T.sin (s1.ellipseOrbit.angle * T.pi / 180 + T.pi +
                T.sin (s1.ellipseOrbit.angle * (1/20) * T.pi / 180) * 25 *
                  T.pi / 180) * s1.ellipseOrbit.radiusY *
              (1 + T.sin (s1.ellipseOrbit.angle * (3/100) * T.pi / 180) * (3/20)) := by
      refine ⟨_, hhit, by norm_num, by norm_num⟩
    have h := render_out_keyinv T env s1 "dot2" d2
      (mkOutput d2
        ((getRenderedPosition T s1.globalState (logoGeometry env)
          (env.innerWidth / 2) (env.innerHeight / 2) d2).1 +
          (e2.x - (getRenderedPosition T s1.globalState (logoGeometry env)
            (env.innerWidth / 2) (env.innerHeight / 2) d2).1) * s1.ellipseBlend)
        ((getRenderedPosition T s1.globalState (logoGeometry env)
          (env.innerWidth / 2) (env.innerHeight / 2) d2).2 +
          (e2.y - (getRenderedPosition T s1.globalState (logoGeometry env)
            (env.innerWidth / 2) (env.innerHeight / 2) d2).2) * s1.ellipseBlend)
        (1 + (e2.depthFactor - 1) * s1.ellipseBlend))
      hnd (alookup_mem _ _ _ hd2)
      (fun reg' _ => processDot_out_ellipse T s1.globalState (logoGeometry env)
        (env.innerWidth / 2) (env.innerHeight / 2) s1.ellipseBlend
        (renderEPos T env s1) reg' "dot2" d2 e2 he2')
    rw [h]
    simp only [mkOutput, Option.map_some']
    rw [he2e.1, he2e.2, hb1]
    norm_num

/-- Witness for C3 at concrete inputs. -/
theorem C3_witness :
    (render Tid envSample { sampleLogoState with ellipseBlend := 0 }).1 =
      (renderGlobalOnly Tid envSample sampleLogoState).1 ∧
    (alookup (render Tid envSample sampleEllipseState).1 "dot1").map
        (fun o => (o.x, o.y)) =
      some (envSample.innerWidth / 2 +
              Tid.cos (sampleEllipseState.ellipseOrbit.angle * Tid.pi / 180) *
                sampleEllipseState.ellipseOrbit.radiusX,
            envSample.innerHeight / 2 +
              Tid.sin (sampleEllipseState.ellipseOrbit.angle * Tid.pi / 180) *
                sampleEllipseState.ellipseOrbit.radiusY) ∧
    (alookup (render Tid envSample sampleEllipseState).1 "dot2").map
        (fun o => (o.x, o.y)) =
      some (envSample.innerWidth / 2 +
              Tid.cos (sampleEllipseState.ellipseOrbit.angle * Tid.pi / 180 + Tid.pi +
                Tid.sin (sampleEllipseState.ellipseOrbit.angle * (1/20) * Tid.pi / 180) *
                  25 * Tid.pi / 180) * sampleEllipseState.ellipseOrbit.radiusX *
              (1 + Tid.sin (sampleEllipseState.ellipseOrbit.angle * (3/100) *
                Tid.pi / 180) * (3/20)),
            envSample.innerHeight / 2 +
              Tid.sin (sampleEllipseState.ellipseOrbit.angle * Tid.pi / 180 + Tid.pi +
                Tid.sin (sampleEllipseState.ellipseOrbit.angle * (1/20) * Tid.pi / 180) *
                  25 * Tid.pi / 180) * sampleEllipseState.ellipseOrbit.radiusY *
              (1 + Tid.sin (sampleEllipseState.ellipseOrbit.angle * (3/100) *
                Tid.pi / 180) * (3/20))) :=
  C3_blend_endpoints Tid envSample sampleLogoState sampleEllipseState sampleDot1
    (defaultDot "dot2") (by simp [sampleEllipseState]) rfl
    (by simp [sampleEllipseState, alookup]) rfl
    (by simp [sampleEllipseState, alookup]) rfl

/-! ## Claim C2 -/

/-- C2 counterexample: in `satChainState` the dot `c` names the satellite
`p` as its parent.  `p`'s own resolved position is `(550, 400)` (its root
parent's position plus its 50-pixel orbit offset), so the claim predicts
`c` at `(550 + 10·cos 0, 400 + 10·sin 0) = (560, 400)`; but the code
positions `c` from `getRenderedPosition(p)` — the root-dot formula applied
to `p`, which ignores `p.parentId` — giving `(510, 400)`.  (`Tid` returns
exactly the real `cos 0 = 1`, `sin 0 = 0` this input evaluates; every
angle involved is 0.) -/
theorem C2_counterexample :
    (alookup (render Tid envSample satChainState).1 "p").map
        (fun o => (o.x, o.y)) = some (550, 400) ∧
    (alookup (render Tid envSample satChainState).1 "c").map
        (fun o => (o.x, o.y)) = some (510, 400) ∧
    (510 : ℚ) ≠ 550 + Tid.cos (satChainChild.orbitAngle * Tid.pi / 180) *
      satChainChild.satelliteOrbitRadius := by
  have hrp : ("root" : String) ≠ "p" := by decide
  have hrc : ("root" : String) ≠ "c" := by decide
  have hpc : ("p" : String) ≠ "c" := by decide
  refine ⟨?_, ?_, ?_⟩ <;>
    norm_num [render, renderEPos, ellipsePositionsFor, ellipseHit,
      renderLoopAux, processDot, processPlain, getRenderedPosition, mkOutput,
      logoGeometry, alookup, satChainState, satChainParent, satChainChild,
      defaultDot, defaultEllipse, Tid, envSample, min_def, hrp, hrc, hpc]

/-- C2 (amended): a dot whose parent id resolves to an existing *root* dot
(a dot with no parent id of its own — the restriction the counterexample
forces: for a satellite parent the code positions the child from the
root-dot formula applied to the parent, not from the parent's resolved
position) and which is not on the ellipse path renders at the parent's
resolved position plus `satelliteOrbitRadius · (cos θ, sin θ)` of the
dot's orbit angle θ as it stood at the start of the call; and after N
render calls the stored orbit angle has advanced by exactly
`N × satelliteOrbitSpeed` (hence by `N × speed` mod 360 as well — the code
never wraps the angle, the trigonometric functions do; the speed need not
be nonzero for either conjunct). -/
theorem C2_satellite_position_and_angle (T : Trig) (env : Env)
    (s : RenderState) (k : String) (d : DotState) (p : String) (par : DotState)
    (N : Nat) (hnd : (s.dots.map Prod.fst).Nodup) (hmem : (k, d) ∈ s.dots)
    (hpid : d.parentId = some p) (hpar : alookup s.dots p = some par)
    (hparRoot : par.parentId = none)
    (hne : ellipseHit s.ellipseBlend (renderEPos T env s) d.id = none) :
    ((alookup (render T env s).1 k).map (fun o => (o.x, o.y)) =
      some ((getRenderedPosition T s.globalState (logoGeometry env)
              (env.innerWidth / 2) (env.innerHeight / 2) par).1 +
              T.cos (d.orbitAngle * T.pi / 180) * d.satelliteOrbitRadius,
            (getRenderedPosition T s.globalState (logoGeometry env)
              (env.innerWidth / 2) (env.innerHeight / 2) par).2 +
              T.sin (d.orbitAngle * T.pi / 180) * d.satelliteOrbitRadius)) ∧
    (alookup (iterateRender T env N s).dots k).map (fun d' => d'.orbitAngle) =
      some (d.orbitAngle + (N : ℚ) * d.satelliteOrbitSpeed) := by
  constructor
  · have hroot : ∀ e', (p, e') ∈ s.dots → e'.parentId = none := by
      intro e' hmem'
      rw [eq_of_mem_alookup_nodup s.dots p e' par hnd hmem' hpar]
      exact hparRoot
    have h := render_out_stable T env s k d p par
      (mkOutput d
        ((getRenderedPosition T s.globalState (logoGeometry env)
          (env.innerWidth / 2) (env.innerHeight / 2) par).1 +
          T.cos (d.orbitAngle * T.pi / 180) * d.satelliteOrbitRadius)
        ((getRenderedPosition T s.globalState (logoGeometry env)
          (env.innerWidth / 2) (env.innerHeight / 2) par).2 +
          T.sin (d.orbitAngle * T.pi / 180) * d.satelliteOrbitRadius) 1)
      hnd hmem hpar hroot
      (fun reg' _ hpar' => processDot_out_sat T s.globalState (logoGeometry env)
        (env.innerWidth / 2) (env.innerHeight / 2) s.ellipseBlend
        (renderEPos T env s) reg' k d p par hne hpid hpar')
    rw [h]
    simp [mkOutput]
  · have hlook : alookup s.dots k = some d :=
      alookup_of_mem_nodup s.dots k d hnd hmem
    have hps : (alookup s.dots p).isSome = true := by rw [hpar]; rfl
    rw [iterate_sat_angle T env k d p s hnd hlook hpid hps hne N]
    simp

/-- Witness for C2 at a concrete satellite, two renders. -/
theorem C2_witness :
    ((alookup (render Tid envSample sampleSatState).1 "s1").map
        (fun o => (o.x, o.y)) =
      some ((getRenderedPosition Tid sampleSatState.globalState
              (logoGeometry envSample) (envSample.innerWidth / 2)
              (envSample.innerHeight / 2) (defaultDot "d1")).1 +
              Tid.cos (sampleSatDot.orbitAngle * Tid.pi / 180) *
                sampleSatDot.satelliteOrbitRadius,
            (getRenderedPosition Tid sampleSatState.globalState
              (logoGeometry envSample) (envSample.innerWidth / 2)
              (envSample.innerHeight / 2) (defaultDot "d1")).2 +
              Tid.sin (sampleSatDot.orbitAngle * Tid.pi / 180) *
                sampleSatDot.satelliteOrbitRadius)) ∧
    (alookup (iterateRender Tid envSample 2 sampleSatState).dots "s1").map
        (fun d' => d'.orbitAngle) =
      some (sampleSatDot.orbitAngle + ((2 : Nat) : ℚ) *
        sampleSatDot.satelliteOrbitSpeed) :=
  C2_satellite_position_and_angle Tid envSample sampleSatState "s1"
    sampleSatDot "d1" (defaultDot "d1") 2
    (by simp [sampleSatState]) (by simp [sampleSatState]) rfl
    (by simp [sampleSatState, alookup]) rfl
    (by simp [ellipseHit, sampleSatState])

/-! ## Claim C9 -/

/-- C9: one render call leaves the set of registry keys unchanged and,
per dot, every stored field except `orbitAngle`; the angle advances by
`satelliteOrbitSpeed`, and only for dots off the ellipse path whose parent
id resolves and whose speed is nonzero (`dotAfterRender` spells this out).
Of the ellipse state exactly `centerX`/`centerY` are rewritten (to the
viewport centre); the global orbit state and the blend are untouched. -/
theorem C9_render_frame (T : Trig) (env : Env) (s : RenderState)
    (hnd : (s.dots.map Prod.fst).Nodup) :
    (render T env s).2 =
      { dots := s.dots.map fun kd =>
          (kd.1, dotAfterRender s.dots s.ellipseBlend (renderEPos T env s) kd.2),
        globalState := s.globalState,
        ellipseOrbit := { s.ellipseOrbit with
          centerX := env.innerWidth / 2, centerY := env.innerHeight / 2 },
        ellipseBlend := s.ellipseBlend } :=
  render_state_eq T env s hnd

/-- Witness for C9 at a concrete state. -/
theorem C9_witness :
    (render Tid envSample sampleSatState).2 =
      { dots := sampleSatState.dots.map fun kd =>
          (kd.1, dotAfterRender sampleSatState.dots sampleSatState.ellipseBlend
            (renderEPos Tid envSample sampleSatState) kd.2),
        globalState := sampleSatState.globalState,
        ellipseOrbit := { sampleSatState.ellipseOrbit with
          centerX := envSample.innerWidth / 2,
          centerY := envSample.innerHeight / 2 },
        ellipseBlend := sampleSatState.ellipseBlend } :=
  C9_render_frame Tid envSample sampleSatState (by simp [sampleSatState])

/-! ## Claim C10 -/

/-- C10: each compound operation is guarded before any mutation: with the
source id unknown `splitDot` returns `null`, with either id unknown
`mergeDots` returns `null`, with the parent id unknown `createSatellite`
returns `null` — and in each case the registry (hence every dot's state)
is returned exactly as it was, with no entity created. -/
theorem C10_compound_guards (reg : Registry)
    (sourceId newId d1Id d2Id parentId satelliteId : String)
    (orbitRadius orbitSpeed startAngle : ℚ) (size : Option ℚ)
    (color : Option String)
    (h1 : alookup reg sourceId = none)
    (h2 : alookup reg d1Id = none ∨ alookup reg d2Id = none)
    (h3 : alookup reg parentId = none) :
    splitDot reg sourceId newId = (none, reg) ∧
    mergeDots reg d1Id d2Id = (none, reg) ∧
    createSatellite reg parentId satelliteId orbitRadius orbitSpeed size
      color startAngle = (none, reg) := by
  refine ⟨by simp [splitDot, h1], ?_, by simp [createSatellite, h3]⟩
  rcases h2 with h | h
  · simp [mergeDots, h]
  · cases hl : alookup reg d1Id with
    | none => simp [mergeDots, hl]
    | some v => simp [mergeDots, hl, h]

/-- Witness for C10 on the empty registry. -/
theorem C10_witness :
    splitDot [] "a" "b" = (none, []) ∧
    mergeDots [] "c" "d" = (none, []) ∧
    createSatellite [] "e" "f" 30 0 none none 0 = (none, []) :=
  C10_compound_guards [] "a" "b" "c" "d" "e" "f" 30 0 0 none none rfl
    (Or.inl rfl) rfl

/-! ## Claim C8 -/

theorem mem_foldl_remStep (l : List (String × Nat)) :
    ∀ (acc : List Nat) (el : Nat),
      el ∈ l.foldl remStep acc ↔
        el ∈ acc ∧ ∀ kd ∈ l, kd.1 ≠ "dot1" → kd.1 ≠ "dot2" → kd.2 ≠ el := by
  induction l with
  | nil => intro acc el; simp
  | cons kd rest ih =>
    intro acc el
    rw [List.foldl_cons, ih]
    by_cases hc : kd.1 ≠ "dot1" ∧ kd.1 ≠ "dot2"
    · rw [remStep, if_pos hc]
      constructor
      · rintro ⟨hmem, hall⟩
        rw [List.mem_filter] at hmem
        have hel : el ≠ kd.2 := by simpa using hmem.2
        refine ⟨hmem.1, ?_⟩
        intro kd' hkd' hn1 hn2
        rcases List.mem_cons.mp hkd' with he | he
        · rw [he]; exact fun hh => hel hh.symm
        · exact hall kd' he hn1 hn2
      · rintro ⟨hmem, hall⟩
        refine ⟨?_, fun kd' h' hn1 hn2 =>
          hall kd' (List.mem_cons_of_mem _ h') hn1 hn2⟩
        rw [List.mem_filter]
        have hel : el ≠ kd.2 :=
          fun hh => hall kd (List.mem_cons_self _ _) hc.1 hc.2 hh.symm
        exact ⟨hmem, by simpa using hel⟩
    · rw [remStep, if_neg hc]
      push_neg at hc
      constructor
      · rintro ⟨hmem, hall⟩
        refine ⟨hmem, ?_⟩
        intro kd' hkd' hn1 hn2
        rcases List.mem_cons.mp hkd' with he | he
        · exfalso
          rw [he] at hn1 hn2
          exact hn2 (hc hn1)
        · exact hall kd' he hn1 hn2
      · rintro ⟨hmem, hall⟩
        exact ⟨hmem, fun kd' h' hn1 hn2 =>
          hall kd' (List.mem_cons_of_mem _ h') hn1 hn2⟩

/-- C8: after teardown no dynamically created dot remains (its element is
detached and the registry holds no entry for it), the resize handler is
unregistered and every scroll trigger is halted; the two anchor dots'
elements are never detached by teardown (their registry entries are also
dropped by the final `clear`, but their DOM elements stay).  The
element-injectivity hypothesis says distinct registry entries hold
distinct DOM elements, as in the browser. -/
theorem C8_cleanup_effects (st : CleanupState)
    (hinj : ∀ k1 e1 k2 e2, (k1, e1) ∈ st.dots → (k2, e2) ∈ st.dots →
      e1 = e2 → k1 = k2) :
    (∀ k e, (k, e) ∈ st.dots → k ≠ "dot1" → k ≠ "dot2" →
      e ∉ (cleanupDotsAnimation st).attached ∧
      alookup (cleanupDotsAnimation st).dots k = none) ∧
    (cleanupDotsAnimation st).resizeHandlerRegistered = false ∧
    (cleanupDotsAnimation st).scrollTriggersActive = 0 ∧
    (cleanupDotsAnimation st).dots = [] ∧
    (∀ e, ("dot1", e) ∈ st.dots ∨ ("dot2", e) ∈ st.dots → e ∈ st.attached →
      e ∈ (cleanupDotsAnimation st).attached) := by
  have hatt : (cleanupDotsAnimation st).attached =
      st.dots.foldl remStep st.attached := by
    unfold cleanupDotsAnimation
    by_cases hr : st.resizeHandlerRegistered <;> simp [hr]
  have hdots : (cleanupDotsAnimation st).dots = [] := by
    unfold cleanupDotsAnimation
    by_cases hr : st.resizeHandlerRegistered <;> simp [hr]
  have hres : (cleanupDotsAnimation st).resizeHandlerRegistered = false := by
    unfold cleanupDotsAnimation
    by_cases hr : st.resizeHandlerRegistered <;> simp [hr]
  have hscr : (cleanupDotsAnimation st).scrollTriggersActive = 0 := by
    unfold cleanupDotsAnimation
    by_cases hr : st.resizeHandlerRegistered <;> simp [hr]
  refine ⟨?_, hres, hscr, hdots, ?_⟩
  · intro k e hm h1 h2
    constructor
    · rw [hatt, mem_foldl_remStep]
      rintro ⟨_, hall⟩
      exact hall (k, e) hm h1 h2 rfl
    · rw [hdots]
      rfl
  · intro e hor hmem
    rw [hatt, mem_foldl_remStep]
    refine ⟨hmem, ?_⟩
    rintro ⟨k', e'⟩ h' hn1 hn2 heq
    rcases hor with hd | hd
    · exact hn1 (hinj k' e' "dot1" e h' hd heq)
    · exact hn2 (hinj k' e' "dot2" e h' hd heq)

/-- Witness for C8 at a concrete teardown state. -/
theorem C8_witness :
    (∀ k e, (k, e) ∈ sampleCleanup.dots → k ≠ "dot1" → k ≠ "dot2" →
      e ∉ (cleanupDotsAnimation sampleCleanup).attached ∧
      alookup (cleanupDotsAnimation sampleCleanup).dots k = none) ∧
    (cleanupDotsAnimation sampleCleanup).resizeHandlerRegistered = false ∧
    (cleanupDotsAnimation sampleCleanup).scrollTriggersActive = 0 ∧
    (cleanupDotsAnimation sampleCleanup).dots = [] ∧
    (∀ e, ("dot1", e) ∈ sampleCleanup.dots ∨ ("dot2", e) ∈ sampleCleanup.dots →
      e ∈ sampleCleanup.attached →
      e ∈ (cleanupDotsAnimation sampleCleanup).attached) :=
  C8_cleanup_effects sampleCleanup
    (by
      intro k1 e1 k2 e2 h1 h2 he
      simp [sampleCleanup] at h1 h2
      rcases h1 with ⟨hk1, he1⟩ | ⟨hk1, he1⟩ <;>
        rcases h2 with ⟨hk2, he2⟩ | ⟨hk2, he2⟩ <;> simp_all)

end DotsAnimation
